import Mathlib

/-! EWPG site script: a verification development.

A shallow embedding of `ewpg-scripts.js` (version 3.0.0): the i18n engine, the frame-throttled
scroll handler with its progress bar and scroll-spy, the mobile menu and the modals with their
focus handling, the animated counters, the vCard download, and the hero node network.

Conventions of the embedding.
* A JavaScript object literal is the list of its own properties in source order; a property
  read on it also sees the names inherited from `Object.prototype`.
* JavaScript numbers are exact rationals (every double is one); rounding of the arithmetic is
  not modelled, and `Math.sqrt` and `Math.pow` are the real square root and power.
* The DOM is the flat list of the elements a handler queries; each element carries only the
  attributes and content the script reads or writes.
-/

namespace Ewpg

/-! ## JavaScript objects -/

/-- Own properties of an object literal, in source order. -/
abbrev Obj (α : Type) := List (String × α)

/-- Property names every plain object inherits from `Object.prototype`. -/
def objectPrototypeKeys : List String :=
  ["constructor", "__defineGetter__", "__defineSetter__", "hasOwnProperty",
   "__lookupGetter__", "__lookupSetter__", "isPrototypeOf", "propertyIsEnumerable",
   "toString", "valueOf", "__proto__", "toLocaleString"]

/-- Outcome of the property read `o[k]` on an object literal `o`. -/
inductive Read (α : Type) where
  /-- an own property and its value -/
  | own (v : α)
  /-- no own property: the built-in found on `Object.prototype` under that name -/
  | inherited (name : String)
  /-- neither own nor inherited -/
  | undefined
  deriving DecidableEq, Repr

/-- The read `o[k]`: own properties first, then the prototype. -/
def getProp {α : Type} (o : Obj α) (k : String) : Read α :=
  match o.lookup k with
  | some v => .own v
  | none => if k ∈ objectPrototypeKeys then .inherited k else .undefined

/-- The property key a `getAttribute` result converts to: `null` becomes the name "null". -/
def keyOf : Option String → String
  | none => "null"
  | some s => s

/-- The string value of property `k` of the built-in inherited under `name`, if that property
is a string. The inherited methods are function objects, whose one string-valued property is
`name`; `__proto__` yields `Object.prototype` itself, which has none. -/
def builtinString (name k : String) : Option String :=
  if k = "name" ∧ name ≠ "__proto__" then
    some (if name = "constructor" then "Object" else name)
  else none

/-- What `setAttribute` stores: the string conversion of the value it was given. -/
inductive AttrVal where
  /-- a string, stored as it is -/
  | str (s : String)
  /-- the engine's text for the built-in inherited under `name` -/
  | ofBuiltin (name : String)
  /-- the engine's text for some other value that is not a string -/
  | ofOther
  deriving DecidableEq, Repr

/-! ## Translation table (lines 35-128) -/

/-- The `translations` object; `year` is what `new Date().getFullYear()` returned. -/
def translations (year : Nat) : Obj (Obj String) := [
  ("nav-members", [("de", "Mitgliedsunternehmen"),
    ("en", "Member Companies"),
    ("fr", "Entreprises membres")]),
  ("nav-about", [("de", "Über uns"),
    ("en", "About Us"),
    ("fr", "\u00C0 propos")]),
  ("nav-opinion", [("de", "Meinung"),
    ("en", "Opinion"),
    ("fr", "Opinion")]),
  ("nav-contact", [("de", "Kontakt"),
    ("en", "Contact"),
    ("fr", "Contact")]),
  ("hero-org", [("de", "Bundesverband für elektronische Wertpapiere e.V."),
    ("en", "Federal Association for Electronic Securities (Bundesverband für elektronische Wertpapiere e.V.)"),
    ("fr", "Association f\u00e9d\u00e9rale pour les titres \u00e9lectroniques (Bundesverband für elektronische Wertpapiere e.V.)")]),
  ("hero-title", [("de", "Elektro\u00ADnische Wertpapiere <em>im Blick</em>"),
    ("en", "Electronic Securities <em>in Focus</em>"),
    ("fr", "Titres \u00e9lectro\u00ADniques <em>en vue</em>")]),
  ("hero-em", [("de", "im Blick"),
    ("en", "in Focus"),
    ("fr", "en vue")]),
  ("hero-subtitle", [("de", "Wir stehen für die Verbesserung der maßgeblichen Rahmenbedingungen für elektronische Wertpapiere."),
    ("en", "We stand for improving the key regulatory framework for electronic securities."),
    ("fr", "Nous nous engageons pour l\u2019am\u00e9lioration du cadre r\u00e9glementaire d\u00e9terminant applicable aux titres \u00e9lectroniques.")]),
  ("hero-about", [("de", "Über uns"),
    ("en", "About Us"),
    ("fr", "\u00C0 propos")]),
  ("hero-contact-btn", [("de", "Kontakt aufnehmen"),
    ("en", "Contact Us"),
    ("fr", "Nous contacter")]),
  ("hero-badge", [("de", "Mitglieds-<br>unternehmen"),
    ("en", "Member<br>Companies"),
    ("fr", "Entreprises<br>membres")]),
  ("hero-scroll", [("de", "Scroll"),
    ("en", "Scroll"),
    ("fr", "D\u00e9filer")]),
  ("members-label", [("de", "Mitgliedsunternehmen"),
    ("en", "Member Companies"),
    ("fr", "Entreprises membres")]),
  ("members-title", [("de", "Partner"),
    ("en", "Partners"),
    ("fr", "Partenaires")]),
  ("members-subtitle", [("de", "Führende Unternehmen der Branche gestalten gemeinsam die Zukunft elektronischer Wertpapiere."),
    ("en", "Leading companies in the industry are jointly shaping the future of electronic securities."),
    ("fr", "Des entreprises de premier plan du secteur fa\u00e7onnent ensemble l\u2019avenir des titres \u00e9lectroniques.")]),
  ("about-label", [("de", "Über uns"),
    ("en", "About Us"),
    ("fr", "\u00C0 propos")]),
  ("about-title", [("de", "Vereins\u00ADzweck"),
    ("en", "Purpose of the Association"),
    ("fr", "Objet de l\u2019asso\u00ADciation")]),
  ("about-lead", [("de", "Der Bundesverband für elektronische Wertpapiere e.V. wurde im April 2023 gegründet."),
    ("en", "The Federal Association for Electronic Securities (Bundesverband für elektronische Wertpapiere e.V.) was founded in April 2023."),
    ("fr", "L\u2019Association f\u00e9d\u00e9rale pour les titres \u00e9lectroniques (Bundesverband für elektronische Wertpapiere e.V.) a \u00e9t\u00e9 fond\u00e9e en avril 2023.")]),
  ("about-body", [("de", "Zweck des Verbandes ist Steigerung des Bekanntheitsgrades und der Akzeptanz elektronischer Wertpapiere nach dem Gesetz über elektronische Wertpapiere (eWpG) und dabei insbesondere von Kryptowertpapieren, und die Förderung der Interessen der an der Emission elektronischer Wertpapiere beteiligten Personen und Unternehmen, um auf diese Weise das Wertpapierrecht zu modernisieren und damit den Finanzplatz Deutschland zu stärken. Die Kryptowertpapierregisterführung ist eine nach nach § 1 Absatz 1a Nr. 8 KWG in Verbindung mit § 32 Absatz 1 KWG erlaubnispflichtige Finanzdienstleistung. Zuständig für die Erteilung der Erlaubnis ist die Bundesanstalt für Finanzdienstleistungsaufsicht."),
    ("en", "The purpose of the association is to increase awareness and acceptance of electronic securities under the Electronic Securities Act (Gesetz über elektronische Wertpapiere \u2013 eWpG), and in particular of crypto securities, and to promote the interests of individuals and companies involved in the issuance of electronic securities, in order to modernize securities law and thereby strengthen Germany as a financial center. The keeping of crypto securities registers is a financial service requiring a license pursuant to Section 1(1a) No. 8 of the Banking Act (Kreditwesengesetz \u2013 KWG) in conjunction with Section 32(1) KWG. The authority responsible for granting the license is the Federal Financial Supervisory Authority (Bundesanstalt für Finanzdienstleistungsaufsicht \u2013 BaFin)."),
    ("fr", "L\u2019objet de l\u2019association est d\u2019accro\u00eetre la notori\u00e9t\u00e9 et l\u2019acceptation des titres \u00e9lectroniques au sens de la loi sur les titres \u00e9lectroniques (Gesetz über elektronische Wertpapiere \u2013 eWpG), et en particulier des crypto-titres, et de promouvoir les int\u00e9r\u00eats des personnes et entreprises participant \u00e0 l\u2019\u00e9mission de titres \u00e9lectroniques, afin de moderniser le droit des valeurs mobili\u00e8res et de renforcer ainsi la place financi\u00e8re allemande. La tenue de registres de crypto-titres est un service financier soumis \u00e0 autorisation en vertu du \u00a7\u00a01, alin\u00e9a\u00a01a, n\u00b0\u00a08 de la loi bancaire (Kreditwesengesetz \u2013 KWG) en liaison avec le \u00a7\u00a032, alin\u00e9a\u00a01 KWG. L\u2019autorit\u00e9 comp\u00e9tente pour la d\u00e9livrance de l\u2019autorisation est l\u2019Autorit\u00e9 f\u00e9d\u00e9rale de surveillance financi\u00e8re (Bundesanstalt für Finanzdienstleistungsaufsicht \u2013 BaFin).")]),
  ("about-body-2", [("de", "Wir setzen uns insbesondere für die Verbesserung der maßgeblichen Rahmenbedingungen für elektronische Wertpapiere ein, treten aktiv für die Verbesserung der maßgeblichen Rahmenbedingungen für elektronische Wertpapiere und die Belange von an der Emission elektronischer Wertpapiere beteiligter Personen und Unternehmen und in Dialog mit Politik, Gesetzgebungsorganen, Aufsichtsbehörden, Institutionen des Kapitalmarkts, Interessenverbänden und der Öffentlichkeit ein, fördern den regelmäßigen fachlichen Austausch unserer Mitglieder untereinander und informieren diese über laufende Konsultationsverfahren und koordinieren etwaige gemeinsame Stellungnahmen im Rahmen solcher Konsultationsverfahren."),
    ("en", "We are particularly committed to improving the key regulatory framework for electronic securities, actively advocating for the improvement of the key regulatory framework for electronic securities and the interests of individuals and companies involved in the issuance of electronic securities, and engaging in dialogue with policymakers, legislative bodies, regulatory authorities, capital markets institutions, industry associations, and the public, promoting regular professional exchange among our members, keeping them informed about ongoing consultation procedures, and coordinating any joint position papers in the context of such consultation procedures."),
    ("fr", "Nous nous engageons en particulier pour l\u2019am\u00e9lioration du cadre r\u00e9glementaire d\u00e9terminant applicable aux titres \u00e9lectroniques, intervenons activement en faveur de l\u2019am\u00e9lioration du cadre r\u00e9glementaire d\u00e9terminant applicable aux titres \u00e9lectroniques et des int\u00e9r\u00eats des personnes et entreprises participant \u00e0 l\u2019\u00e9mission de titres \u00e9lectroniques, et dialoguons avec les responsables politiques, les organes l\u00e9gislatifs, les autorit\u00e9s de surveillance, les institutions du march\u00e9 des capitaux, les associations professionnelles et le public, favorisons l\u2019\u00e9change professionnel r\u00e9gulier entre nos membres, les informons des proc\u00e9dures de consultation en cours et coordonnons les \u00e9ventuelles prises de position communes dans le cadre de ces proc\u00e9dures de consultation.")]),
  ("about-founded", [("de", "Gegründet"),
    ("en", "Founded"),
    ("fr", "Fond\u00e9e")]),
  ("about-members", [("de", "Mitglieder"),
    ("en", "Members"),
    ("fr", "Membres")]),
  ("about-location", [("de", "Standort"),
    ("en", "Location"),
    ("fr", "Si\u00e8ge")]),
  ("board-label", [("de", "Vorstand"),
    ("en", "Board of Directors"),
    ("fr", "Directoire")]),
  ("board-title", [("de", "Unser Vorstand"),
    ("en", "Our Board of Directors"),
    ("fr", "Notre directoire")]),
  ("board-intro", [("de", "Unser Vorstand besteht aus drei Mitgliedern:"),
    ("en", "Our board of directors consists of three members:"),
    ("fr", "Notre directoire se compose de trois membres\u00a0:")]),
  ("board-ceo", [("de", "Vorstandsvorsitzender"),
    ("en", "Chairman of the Board"),
    ("fr", "Pr\u00e9sident du directoire")]),
  ("board-vice", [("de", "Stellv. Vorstandsvorsitzender"),
    ("en", "Deputy Chairman of the Board"),
    ("fr", "Vice-pr\u00e9sident du directoire")]),
  ("board-member", [("de", "Vorstandsmitglied"),
    ("en", "Board Member"),
    ("fr", "Membre du directoire")]),
  ("pub-label", [("de", "Meinung"),
    ("en", "Opinion"),
    ("fr", "Opinion")]),
  ("pub-title", [("de", "Stellungnahmen, News & Standards"),
    ("en", "Position Papers, News & Standards"),
    ("fr", "Prises de position, actualit\u00e9s & standards")]),
  ("pub-subtitle", [("de", "Unsere Positionen zu regulatorischen Entwicklungen und technischen Standards."),
    ("en", "Our positions on regulatory developments and technical standards."),
    ("fr", "Nos positions sur les \u00e9volutions r\u00e9glementaires et les standards techniques.")]),
  ("pub-cat-statements", [("de", "Stellungnahmen"),
    ("en", "Position Papers"),
    ("fr", "Prises de position")]),
  ("pub-cat-news", [("de", "News"),
    ("en", "News"),
    ("fr", "Actualit\u00e9s")]),
  ("pub-cat-standard", [("de", "Tokenstandard"),
    ("en", "Token Standard"),
    ("fr", "Standard de jetons")]),
  ("pub-cat-media", [("de", "Medien"),
    ("en", "Media"),
    ("fr", "M\u00e9dias")]),
  ("pub-badge-statement", [("de", "Stellungnahme"),
    ("en", "Position Paper"),
    ("fr", "Prise de position")]),
  ("pub-badge-news", [("de", "News"),
    ("en", "News"),
    ("fr", "Actualit\u00e9s")]),
  ("pub-badge-standard", [("de", "Standard"),
    ("en", "Standard"),
    ("fr", "Standard")]),
  ("pub-badge-media", [("de", "Medien"),
    ("en", "Media"),
    ("fr", "M\u00e9dias")]),
  ("pub-title-brubeg", [("de", "Referentenentwurf eines Bankenrichtlinienumsetzungs- und B\u00fcrokratieentlastungsgesetzes (BRUBEG)"),
    ("en", "Draft Bill on the Transposition of the Banking Directive and Reduction of Bureaucracy (BRUBEG)"),
    ("fr", "Projet de loi sur la transposition de la directive bancaire et la r\u00e9duction de la bureaucratie (BRUBEG)")]),
  ("pub-title-dataact", [("de", "Stellungnahme zur Erw\u00e4hnung von Smart Contracts im Data Act"),
    ("en", "Statement on the Mention of Smart Contracts in the Data Act"),
    ("fr", "Prise de position sur la mention des contrats intelligents dans le Data Act")]),
  ("pub-title-zufing", [("de", "Referentenentwurf des Zukunfts\u00ADfinanzierungs\u00ADgesetztes"),
    ("en", "Draft of the Future Financing Act"),
    ("fr", "Projet de loi sur le financement de l\u2019avenir")]),
  ("pub-title-euparlament", [("de", "Vorschlag des Europ\u00e4ischen Parlaments und des Rates"),
    ("en", "Proposal of the European Parliament and of the Council"),
    ("fr", "Proposition du Parlement europ\u00e9en et du Conseil")]),
  ("pub-title-confirms", [("de", "Bundesverband f\u00fcr elektronische Wertpapiere best\u00e4tigt zwei eWpG-konforme Implementierungen seines technischen Standards"),
    ("en", "German Association for Electronic Securities Confirms two eWpG-Compliant Implementations under its Technical Standard"),
    ("fr", "L\u2019Association f\u00e9d\u00e9rale pour les titres \u00e9lectroniques confirme deux impl\u00e9mentations conformes \u00e0 l\u2019eWpG de son standard technique")]),
  ("pub-title-mv-standard", [("de", "Mitgliederversammlung des Bundesverbandes der Kryptowertpapierregisterf\u00fchrer beschlie\u00dft technischen Standard f\u00fcr Kryptowertpapiere"),
    ("en", "General Assembly of the Federal Association of Crypto Securities Register Operators Adopts Technical Standard for Crypto Securities"),
    ("fr", "L\u2019assembl\u00e9e g\u00e9n\u00e9rale de l\u2019Association f\u00e9d\u00e9rale des teneurs de registres de crypto-titres adopte un standard technique pour les crypto-titres")]),
  ("pub-title-tokenstandard", [("de", "Technischer Standard f\u00fcr tokenbasierte Kryptowertpapiere"),
    ("en", "Technical Standard for Token-Based Crypto Securities"),
    ("fr", "Standard technique pour les crypto-titres tokenis\u00e9s")]),
  ("pub-title-interview", [("de", "Interview \u2018Konstruktive Kryptoregulierung\u2019"),
    ("en", "Interview \u2018Constructive Crypto Regulation\u2019"),
    ("fr", "Interview \u00ab R\u00e9gulation constructive des cryptoactifs \u00bb")]),
  ("cta-badge", [("de", "Gemeinsam den Finanzplatz<br>Deutschland stärken"),
    ("en", "Together, Strengthening Germany<br>as a Financial Center"),
    ("fr", "Ensemble, renforcer la place<br>financi\u00e8re allemande")]),
  ("cta-label", [("de", "Mitglied werden"),
    ("en", "Become a Member"),
    ("fr", "Devenir membre")]),
  ("cta-title", [("de", "Werden Sie Teil des Verbands"),
    ("en", "Become Part of the Association"),
    ("fr", "Rejoignez l\u2019association")]),
  ("cta-subtitle", [("de", "Gestalten Sie die Zukunft elektronischer Wertpapiere aktiv mit – als Mitglied im Bundesverband für elektronische Wertpapiere e.V."),
    ("en", "Actively help shape the future of electronic securities \u2013 as a member of the Federal Association for Electronic Securities (Bundesverband für elektronische Wertpapiere e.V.)."),
    ("fr", "Contribuez activement \u00e0 fa\u00e7onner l\u2019avenir des titres \u00e9lectroniques \u2013 en tant que membre de la Association f\u00e9d\u00e9rale pour les titres \u00e9lectroniques (Bundesverband für elektronische Wertpapiere e.V.).")]),
  ("cta-contact", [("de", "Kontakt aufnehmen"),
    ("en", "Contact Us"),
    ("fr", "Nous contacter")]),
  ("cta-learn", [("de", "Mehr erfahren"),
    ("en", "Learn More"),
    ("fr", "En savoir plus")]),
  ("contact-label", [("de", "Kontakt"),
    ("en", "Contact"),
    ("fr", "Contact")]),
  ("contact-title", [("de", "Sprechen Sie uns an"),
    ("en", "Get in Touch"),
    ("fr", "Contactez-nous")]),
  ("contact-address", [("de", "Adresse"),
    ("en", "Address"),
    ("fr", "Adresse")]),
  ("contact-address-value", [("de", "<a href=\"https://www.google.com/maps/search/?api=1&query=Magnusstra%C3%9Fe+13%2C+50672+K%C3%B6ln\" target=\"_blank\" rel=\"noopener noreferrer\">Bundesverband f\u00fcr elektronische<br>Wertpapiere e.V.<br>c/o Heuking K\u00fchn L\u00fcer Wojtek PartGmbB<br>Magnusstra\u00dfe 13, 50672 K\u00f6ln</a>"),
    ("en", "<a href=\"https://www.google.com/maps/search/?api=1&query=Magnusstra%C3%9Fe+13%2C+50672+K%C3%B6ln\" target=\"_blank\" rel=\"noopener noreferrer\">Bundesverband f\u00fcr elektronische<br>Wertpapiere e.V.<br>c/o Heuking K\u00fchn L\u00fcer Wojtek PartGmbB<br>Magnusstra\u00dfe 13, 50672 K\u00f6ln, Germany</a>"),
    ("fr", "<a href=\"https://www.google.com/maps/search/?api=1&query=Magnusstra%C3%9Fe+13%2C+50672+K%C3%B6ln\" target=\"_blank\" rel=\"noopener noreferrer\">Bundesverband f\u00fcr elektronische<br>Wertpapiere e.V.<br>c/o Heuking K\u00fchn L\u00fcer Wojtek PartGmbB<br>Magnusstra\u00dfe 13, 50672 K\u00f6ln, Allemagne</a>")]),
  ("contact-phone", [("de", "Telefon"),
    ("en", "Phone"),
    ("fr", "T\u00e9l\u00e9phone")]),
  ("contact-phone-value", [("de", "<a href=\"tel:+4922120522220\">0221 20 52-220</a>"),
    ("en", "<a href=\"tel:+4922120522220\">+49 221 20 52-220</a>"),
    ("fr", "<a href=\"tel:+4922120522220\">+49 221 20 52-220</a>")]),
  ("contact-fax", [("de", "Fax"),
    ("en", "Fax"),
    ("fr", "Fax")]),
  ("contact-fax-value", [("de", "<a href=\"tel:+49221205201\">0221 20 52-1</a>"),
    ("en", "<a href=\"tel:+49221205201\">+49 221 20 52-1</a>"),
    ("fr", "<a href=\"tel:+49221205201\">+49 221 20 52-1</a>")]),
  ("contact-email", [("de", "E-Mail"),
    ("en", "Email"),
    ("fr", "E-mail")]),
  ("vcard-download", [("de", "Kontakt speichern"),
    ("en", "Save Contact"),
    ("fr", "Enregistrer le contact")]),
  ("form-firstname", [("de", "Vorname*"),
    ("en", "First Name*"),
    ("fr", "Pr\u00e9nom*")]),
  ("form-lastname", [("de", "Nachname*"),
    ("en", "Last Name*"),
    ("fr", "Nom*")]),
  ("form-email", [("de", "E-Mail*"),
    ("en", "Email*"),
    ("fr", "E-mail*")]),
  ("form-phone", [("de", "Telefon"),
    ("en", "Phone"),
    ("fr", "T\u00e9l\u00e9phone")]),
  ("form-subject", [("de", "Betreff"),
    ("en", "Subject"),
    ("fr", "Objet")]),
  ("form-message", [("de", "Nachricht*"),
    ("en", "Message*"),
    ("fr", "Message*")]),
  ("form-consent", [("de", "* Ich erkläre mich mit der Verarbeitung der eingegebenen Daten sowie der über den Link unten auf dieser Seite aufrufbaren Datenschutzerklärung einverstanden."),
    ("en", "* I consent to the processing of the data entered and to the privacy policy accessible via the link at the bottom of this page."),
    ("fr", "* Je consens au traitement des donn\u00e9es saisies ainsi qu\u2019\u00e0 la politique de confidentialit\u00e9 accessible via le lien en bas de cette page.")]),
  ("form-submit", [("de", "Absenden"),
    ("en", "Submit"),
    ("fr", "Envoyer")]),
  ("form-success", [("de", "<strong>Vielen Dank</strong><br>Ihre Nachricht wurde gesendet.<br><br>Wir werden uns in Kürze bei Ihnen melden."),
    ("en", "<strong>Thank You</strong><br>Your message has been sent.<br><br>We will be in touch shortly."),
    ("fr", "<strong>Merci beaucoup</strong><br>Votre message a \u00e9t\u00e9 envoy\u00e9.<br><br>Nous vous recontacterons dans les meilleurs d\u00e9lais.")]),
  ("form-error", [("de", "Oh, da ist etwas schief gelaufen. Bitte versuchen Sie es noch einmal oder schreiben Sie uns eine E-Mail an <a href=\"mailto:info@ewpg.de\">info@ewpg.de</a>. Vielen Dank."),
    ("en", "Oh, something went wrong. Please try again or send us an email at <a href=\"mailto:info@ewpg.de\">info@ewpg.de</a>. Thank you."),
    ("fr", "Oh, une erreur s\u2019est produite. Veuillez r\u00e9essayer ou nous envoyer un e-mail \u00e0 <a href=\"mailto:info@ewpg.de\">info@ewpg.de</a>. Merci.")]),
  ("back-to-top", [("de", "Nach oben scrollen"),
    ("en", "Scroll to top"),
    ("fr", "Retour en haut")]),
  ("footer-copyright", [("de", "\u00A9 " ++ toString year ++ " Bundesverband f\u00fcr elektronische Wertpapiere e. V."),
    ("en", "\u00A9 " ++ toString year ++ " Federal Association for Electronic Securities (Bundesverband f\u00fcr elektronische Wertpapiere e. V.)"),
    ("fr", "\u00A9 " ++ toString year ++ " Association f\u00e9d\u00e9rale pour les titres \u00e9lectroniques (Bundesverband f\u00fcr elektronische Wertpapiere e. V.)")]),
  ("footer-imprint", [("de", "Impressum"),
    ("en", "Legal Notice"),
    ("fr", "Mentions l\u00e9gales")]),
  ("footer-privacy", [("de", "Datenschutzerklärung"),
    ("en", "Privacy Policy"),
    ("fr", "Politique de confidentialit\u00e9")]),
  ("modal-imprint-title", [("de", "Impressum"),
    ("en", "Legal Notice"),
    ("fr", "Mentions l\u00e9gales")]),
  ("modal-privacy-title", [("de", "Datenschutzerklärung"),
    ("en", "Privacy Policy"),
    ("fr", "Politique de confidentialit\u00e9")])
]

/-! ## i18n engine (lines 130-201) -/

/-- The `localStorage` of the page: either every access raises (private browsing), or it is a
list of key and value pairs on which reads and writes succeed. -/
inductive Storage where
  | unavailable
  | available (items : List (String × String))
  deriving DecidableEq, Repr

/-- The call `localStorage.getItem(k)`: an error when the access raises, otherwise the stored
string or `none` for JavaScript's `null`. -/
def Storage.getItem : Storage → String → Except Unit (Option String)
  | .unavailable, _ => .error ()
  | .available items, k => .ok (items.lookup k)

/-- Replace the value stored under `k`, or add the pair at the end. -/
def setPair (k v : String) : List (String × String) → List (String × String)
  | [] => [(k, v)]
  | (k', v') :: rest => if k' = k then (k, v) :: rest else (k', v') :: setPair k v rest

/-- The call `localStorage.setItem(k, v)`. -/
def Storage.setItem : Storage → String → String → Except Unit Storage
  | .unavailable, _, _ => .error ()
  | .available items, k, v => .ok (.available (setPair k v items))

/-- Start-up choice of `currentLang` (lines 132-138): the stored value when it is one of the
three codes, else the initial "de"; a raising storage access is caught. -/
def initialLang (st : Storage) : String :=
  match st.getItem "ewpg-lang" with
  | .ok (some saved) =>
      if saved = "en" ∨ saved = "de" ∨ saved = "fr" then saved else "de"
  | .ok none => "de"
  | .error _ => "de"

/-- Content of an element, by the property last written: `innerHTML` or `textContent`. -/
inductive Content where
  | html (s : String)
  | text (s : String)
  deriving DecidableEq, Repr

/-- An element matched by `[data-i18n]`: its key and its content. -/
structure I18nElement where
  key : String
  content : Content
  deriving DecidableEq, Repr

/-- An element matched by `[data-i18n-aria]`: its key and its `aria-label`, if it has one. -/
structure AriaElement where
  key : String
  ariaLabel : Option AttrVal
  deriving DecidableEq, Repr

/-- A `.lang-switch__btn` button: `data-lang` (`none` when absent), whether it carries the
class `is-active`, and its `aria-pressed` attribute. -/
structure LangBtn where
  dataLang : Option String
  isActive : Bool
  ariaPressed : Option String
  deriving DecidableEq, Repr

/-- What `applyLanguage` reads and writes. -/
structure Page where
  /-- the `currentLang` variable; `none` is `null` -/
  currentLang : Option String
  storage : Storage
  /-- the `lang` attribute of the root element -/
  htmlLang : Option AttrVal
  elements : List I18nElement
  ariaElements : List AriaElement
  langBtns : List LangBtn
  deriving DecidableEq, Repr

/-- The `langMap` literal of line 150. -/
def langMap : Obj String := [("de", "de-DE"), ("en", "en-US"), ("fr", "fr-FR")]

/-- The value given to `setAttribute('lang', ...)` at line 151: `langMap[lang] || 'de-DE'`. -/
def htmlLangFor (lang : Option String) : AttrVal :=
  match getProp langMap (keyOf lang) with
  | .own s => if s = "" then .str "de-DE" else .str s
  | .inherited name => .ofBuiltin name
  | .undefined => .str "de-DE"

/-- What one pass of a translation loop finds for a key. -/
inductive Found where
  /-- the guard `translations[key]` is falsy -/
  | skip
  /-- the value `translations[key][lang]` is this string -/
  | string (s : String)
  /-- the value is `undefined` -/
  | undefinedValue
  /-- the value is the built-in inherited under `name` -/
  | builtinValue (name : String)
  /-- the value is not a string; which value it is, is not recorded -/
  | otherValue
  deriving DecidableEq, Repr

/-- The reads `translations[key]` and, when that is truthy, `translations[key][lang]`.
A built-in reached through an inherited name has no property called de, en or fr. For such a
built-in and any property other than those and `name`, only the fact that the value is not a
string is recorded; that reading the restricted properties `caller` and `arguments` of a
function raises by itself is not modelled. -/
def findText (year : Nat) (key : String) (lang : Option String) : Found :=
  match getProp (translations year) key with
  | .undefined => .skip
  | .own entry =>
      match getProp entry (keyOf lang) with
      | .own s => .string s
      | .inherited name => .builtinValue name
      | .undefined => .undefinedValue
  | .inherited name =>
      match builtinString name (keyOf lang) with
      | some s => .string s
      | none =>
          if keyOf lang ∈ ["de", "en", "fr"] then .undefinedValue else .otherValue

/-- The loop of lines 154-165 over the rest of the `[data-i18n]` list. A value without an
`indexOf` method raises a TypeError, which leaves the remaining elements untouched; the flag
says whether that happened. -/
def applyToElements (year : Nat) (lang : Option String) :
    List I18nElement → List I18nElement × Bool
  | [] => ([], false)
  | el :: rest =>
      match findText year el.key lang with
      | .skip =>
          let r := applyToElements year lang rest
          (el :: r.1, r.2)
      | .string text =>
          let r := applyToElements year lang rest
          ({ el with content := if '<' ∈ text.toList then .html text else .text text } :: r.1,
            r.2)
      | _ => (el :: rest, true)

/-- The loop of lines 168-174: `setAttribute('aria-label', translations[ariaKey][lang])`. -/
def applyToAria (year : Nat) (lang : Option String) : List AriaElement → List AriaElement
  | [] => []
  | el :: rest =>
      match findText year el.key lang with
      | .skip => el :: applyToAria year lang rest
      | .string s => { el with ariaLabel := some (.str s) } :: applyToAria year lang rest
      | .undefinedValue =>
          { el with ariaLabel := some (.str "undefined") } :: applyToAria year lang rest
      | .builtinValue name =>
          { el with ariaLabel := some (.ofBuiltin name) } :: applyToAria year lang rest
      | .otherValue => { el with ariaLabel := some .ofOther } :: applyToAria year lang rest

/-- The loop of lines 177-187 over the language buttons. -/
def applyToBtns (lang : Option String) (btns : List LangBtn) : List LangBtn :=
  btns.map fun btn =>
    if btn.dataLang = lang then { btn with isActive := true, ariaPressed := some "true" }
    else { btn with isActive := false, ariaPressed := some "false" }

/-- Result of a call: the page as the call left it, and whether a TypeError escaped. -/
structure Outcome where
  page : Page
  raised : Bool
  deriving DecidableEq, Repr

/-- The function `applyLanguage(lang)` (lines 145-188). -/
def applyLanguage (year : Nat) (lang : Option String) (p : Page) : Outcome :=
  let storage :=
    match p.storage.setItem "ewpg-lang" (keyOf lang) with
    | .ok s => s
    | .error _ => p.storage
  let p1 : Page :=
    { p with currentLang := lang, storage := storage, htmlLang := some (htmlLangFor lang) }
  let r := applyToElements year lang p1.elements
  if r.2 then
    { page := { p1 with elements := r.1 }, raised := true }
  else
    { page := { p1 with elements := r.1,
                        ariaElements := applyToAria year lang p1.ariaElements,
                        langBtns := applyToBtns lang p1.langBtns },
      raised := false }

/-- The content the table prescribes for a tagged element under a language: the entry's
string, as markup when it contains the character `<` and as text otherwise; the old content
when the key has no entry. -/
def specContent (year : Nat) (lang : String) (el : I18nElement) : Content :=
  match (translations year).lookup el.key with
  | some entry =>
      match entry.lookup lang with
      | some s => if '<' ∈ s.toList then .html s else .text s
      | none => el.content
  | none => el.content

/-! ## Unified scroll handler (lines 213-273) -/

/-- The constant `SCROLL_SPY_OFFSET`. -/
def SCROLL_SPY_OFFSET : ℚ := 120

/-- The constant `BACK_TO_TOP_THRESHOLD`. -/
def BACK_TO_TOP_THRESHOLD : ℚ := 500

/-- The function `Math.round`: the nearest integer, a tie going up. -/
def jsRound (q : ℚ) : ℤ := ⌊q + 1 / 2⌋

/-- A `section[id]` element: its `offsetTop` and its `id` attribute. -/
structure Section where
  offsetTop : ℤ
  id : String
  deriving DecidableEq, Repr

/-- A link of the navigation menu: its `href` and whether it carries `is-active`. -/
structure NavLink where
  href : String
  isActive : Bool
  deriving DecidableEq, Repr

/-- What the scroll listener and `onScroll` read and write. -/
structure ScrollPage where
  /-- `window.scrollY` -/
  scrollY : ℚ
  /-- `document.documentElement.scrollHeight` -/
  scrollHeight : ℤ
  /-- `window.innerHeight` -/
  innerHeight : ℤ
  /-- width of the progress bar, in percent -/
  progressWidth : ℚ
  /-- `aria-valuenow` of the progress bar -/
  ariaValueNow : ℤ
  /-- class `is-scrolled` of the navigation bar -/
  navScrolled : Bool
  /-- class `is-visible` of the back-to-top button; `none` when the page has no such button -/
  backToTop : Option Bool
  /-- the cached `spySections` list, in document order -/
  sections : List Section
  /-- the cached `navLinks` list -/
  navLinks : List NavLink
  /-- whether the page has a hero background image -/
  hasHeroBg : Bool
  supportsScrollTimeline : Bool
  /-- `heroEl.offsetHeight` -/
  heroH : ℤ
  /-- vertical translation last written to the hero image, in pixels -/
  heroTranslateY : Option ℚ
  /-- the `scrollTicking` flag -/
  scrollTicking : Bool
  /-- how many `onScroll` callbacks wait for the next animation frame -/
  pendingOnScroll : Nat
  /-- bookkeeping: how many times `onScroll` has run -/
  onScrollRuns : Nat
  deriving DecidableEq, Repr

/-- The scroll-spy loop of lines 245-250: `current` after the loop. -/
def scrollSpyCurrent (scrollPos : ℚ) (sections : List Section) : String :=
  sections.foldl (fun current s => if (s.offsetTop : ℚ) ≤ scrollPos then s.id else current) ""

/-- The loop of lines 251-254: `classList.toggle('is-active', href === '#' + current)`. -/
def markNavLinks (current : String) (links : List NavLink) : List NavLink :=
  links.map fun link => { link with isActive := decide (link.href = "#" ++ current) }

/-- The percentage `pct` of line 231. -/
def progressPct (scrollY : ℚ) (docH : ℤ) : ℚ :=
  if 0 < docH then scrollY / docH * 100 else 0

/-- The function `onScroll()` (lines 226-265). -/
def onScroll (p : ScrollPage) : ScrollPage :=
  let scrollY := p.scrollY
  let docH := p.scrollHeight - p.innerHeight
  let pct := progressPct scrollY docH
  let scrollPos := scrollY + SCROLL_SPY_OFFSET
  let current := scrollSpyCurrent scrollPos p.sections
  { p with
    progressWidth := pct
    ariaValueNow := jsRound pct
    navScrolled := decide (10 < scrollY)
    backToTop := p.backToTop.map fun _ => decide (BACK_TO_TOP_THRESHOLD < scrollY)
    navLinks := markNavLinks current p.navLinks
    heroTranslateY :=
      if p.hasHeroBg ∧ ¬ p.supportsScrollTimeline then
        if scrollY < p.heroH then some (scrollY * 0.15) else p.heroTranslateY
      else p.heroTranslateY
    scrollTicking := false
    onScrollRuns := p.onScrollRuns + 1 }

/-- What can happen to the scroll handler: the page is scrolled to `y` and the scroll event is
delivered, or an animation frame runs the callbacks requested before it. -/
inductive ScrollEvent where
  | scroll (y : ℚ)
  | frame
  deriving DecidableEq, Repr

/-- The scroll listener of lines 267-272. -/
def scrollListener (p : ScrollPage) : ScrollPage :=
  if p.scrollTicking then p
  else { p with pendingOnScroll := p.pendingOnScroll + 1, scrollTicking := true }

/-- One event of the scroll handler. -/
def scrollStep (p : ScrollPage) : ScrollEvent → ScrollPage
  | .scroll y => scrollListener { p with scrollY := y }
  | .frame => Nat.iterate onScroll p.pendingOnScroll { p with pendingOnScroll := 0 }

/-- The page after a sequence of events. -/
def scrollRun (p : ScrollPage) (events : List ScrollEvent) : ScrollPage :=
  events.foldl scrollStep p

/-- The page once the script has started (line 273): nothing requested, `onScroll` run once. -/
def scrollStart (p : ScrollPage) : ScrollPage :=
  onScroll { p with scrollTicking := false, pendingOnScroll := 0, onScrollRuns := 0 }

/-! ## Mobile menu, modals and focus (lines 275-313 and 409-474) -/

/-- An element that can hold focus, named by a number. -/
abbrev ElementId := ℕ

/-- What the menu and modal functions read and write. Modal ids range over the overlays of
the page, so `document.getElementById(id)` finds one. -/
structure Overlays where
  /-- class `is-open` of the mobile menu -/
  menuOpen : Bool
  /-- attribute `aria-hidden` of the mobile menu -/
  menuAriaHidden : String
  /-- attribute `aria-expanded` of the burger button -/
  burgerExpanded : String
  /-- ids of the modal overlays carrying the class `is-open` -/
  openModals : List String
  /-- ids of the modal overlays with `trapFocus` attached as keydown listener -/
  trapped : List String
  /-- the value of `document.body.style.overflow` -/
  bodyOverflow : String
  /-- `document.activeElement`; `none` when no element has focus -/
  activeElement : Option ElementId
  /-- the variable `lastFocusedEl`; `none` is `null` -/
  lastFocusedEl : Option ElementId
  deriving DecidableEq, Repr

/-- The focus targets the functions look up: the first link of the mobile menu and, for each
modal, the first element matching `button, [href], input`. -/
structure FocusTargets where
  menuFirstLink : Option ElementId
  modalFocusable : String → Option ElementId

/-- The function `openMobileMenu()` (lines 279-286). -/
def openMobileMenu (ft : FocusTargets) (s : Overlays) : Overlays :=
  { s with
    menuOpen := true
    menuAriaHidden := "false"
    burgerExpanded := "true"
    bodyOverflow := "hidden"
    activeElement :=
      match ft.menuFirstLink with
      | some link => some link
      | none => s.activeElement }

/-- The function `closeMobileMenu()` (lines 287-292). -/
def closeMobileMenu (s : Overlays) : Overlays :=
  { s with
    menuOpen := false
    menuAriaHidden := "true"
    burgerExpanded := "false"
    bodyOverflow := "" }

/-- The function `openModal(id)` (lines 411-419). -/
def openModal (ft : FocusTargets) (id : String) (s : Overlays) : Overlays :=
  { s with
    lastFocusedEl := s.activeElement
    openModals := if id ∈ s.openModals then s.openModals else s.openModals ++ [id]
    bodyOverflow := "hidden"
    activeElement :=
      match ft.modalFocusable id with
      | some el => some el
      | none => s.activeElement
    trapped := if id ∈ s.trapped then s.trapped else s.trapped ++ [id] }

/-- The function `closeModal(id)` (lines 420-426). -/
def closeModal (id : String) (s : Overlays) : Overlays :=
  { s with
    openModals := s.openModals.filter fun m => m ≠ id
    trapped := s.trapped.filter fun m => m ≠ id
    bodyOverflow := ""
    activeElement :=
      match s.lastFocusedEl with
      | some el => some el
      | none => s.activeElement }

/-- The Escape branch of the window keydown listener (lines 466-474): every overlay that is
open when the key is pressed is closed, then the mobile menu. -/
def escapePressed (s : Overlays) : Overlays :=
  closeMobileMenu (s.openModals.foldl (fun t id => closeModal id t) s)

/-- What can happen to the overlays: the five operations, and the user moving focus. -/
inductive OverlayOp where
  | openMobileMenu
  | closeMobileMenu
  | openModal (id : String)
  | closeModal (id : String)
  | escape
  | focus (el : ElementId)
  deriving DecidableEq, Repr

/-- One operation on the overlays. -/
def overlayStep (ft : FocusTargets) (s : Overlays) : OverlayOp → Overlays
  | .openMobileMenu => openMobileMenu ft s
  | .closeMobileMenu => closeMobileMenu s
  | .openModal id => openModal ft id s
  | .closeModal id => closeModal id s
  | .escape => escapePressed s
  | .focus el => { s with activeElement := some el }

/-- The overlays after a sequence of operations. -/
def overlayRun (ft : FocusTargets) (s : Overlays) (ops : List OverlayOp) : Overlays :=
  ops.foldl (overlayStep ft) s

/-- The page with everything closed and focus on `active`. -/
def overlaysClosed (active : Option ElementId) : Overlays :=
  { menuOpen := false, menuAriaHidden := "true", burgerExpanded := "false"
    openModals := [], trapped := [], bodyOverflow := "", activeElement := active
    lastFocusedEl := none }

/-- A keydown event: its `key` and its `shiftKey`. -/
structure KeyEvent where
  key : String
  shiftKey : Bool
  deriving DecidableEq, Repr

/-- What a keydown handler did: whether it called `preventDefault()`, and the element that
has focus when it returns. -/
structure KeyResult where
  defaultPrevented : Bool
  activeElement : Option ElementId
  deriving DecidableEq, Repr

/-- The comparison `document.activeElement === x` for an `x` read from a node list, where
`none` on the left is `null` and `none` on the right is `undefined`. -/
def sameElement : Option ElementId → Option ElementId → Bool
  | some a, some b => a == b
  | _, _ => false

/-- The keydown listener of the mobile menu (lines 301-313) for the list `focusable`. -/
def menuKeydown (focusable : List ElementId) (e : KeyEvent) (active : Option ElementId) :
    KeyResult :=
  if e.key ≠ "Tab" then ⟨false, active⟩
  else if focusable.length = 0 then ⟨false, active⟩
  else
    let first := focusable[0]?
    let last := focusable[focusable.length - 1]?
    if e.shiftKey ∧ sameElement active first then ⟨true, last⟩
    else if ¬ e.shiftKey ∧ sameElement active last then ⟨true, first⟩
    else ⟨false, active⟩

/-- The function `trapFocus(e)` (lines 427-439) for the list `els`. -/
def trapFocus (els : List ElementId) (e : KeyEvent) (active : Option ElementId) : KeyResult :=
  if e.key ≠ "Tab" then ⟨false, active⟩
  else
    let first := els[0]?
    let last := els[els.length - 1]?
    if e.shiftKey ∧ sameElement active first then ⟨true, last⟩
    else if ¬ e.shiftKey ∧ sameElement active last then ⟨true, first⟩
    else ⟨false, active⟩

/-- The default action of the Tab key when the tab order walks the list: from an element of
the list to its successor, with Shift to its predecessor; `none` when focus leaves the list
or was not in it. -/
def defaultTab (els : List ElementId) (shift : Bool) (active : Option ElementId) :
    Option ElementId :=
  match active with
  | none => none
  | some a =>
      if a ∈ els then
        if shift then
          if els.indexOf a = 0 then none else els[els.indexOf a - 1]?
        else els[els.indexOf a + 1]?
      else none

/-- One key press: the handler runs, then the default action unless it was prevented. -/
def pressKey (handler : List ElementId → KeyEvent → Option ElementId → KeyResult)
    (els : List ElementId) (active : Option ElementId) (e : KeyEvent) : Option ElementId :=
  if (handler els e active).defaultPrevented then (handler els e active).activeElement
  else if e.key = "Tab" then defaultTab els e.shiftKey active
  else active

/-! ## Animated counters (lines 329-360) -/

open Classical in
/-- The function `easeOutExpo(t)` (lines 331-333), in exact arithmetic. -/
noncomputable def easeOutExpo (t : ℝ) : ℝ :=
  if t = 1 then 1 else 1 - (2 : ℝ) ^ (-10 * t)

/-- The function `Math.round` on a real number: the nearest integer, a tie going up. -/
noncomputable def roundReal (x : ℝ) : ℤ := ⌊x + 1 / 2⌋

/-- An element matched by `[data-count]`. -/
structure Counter where
  /-- the result of `parseInt(data-count, 10)`; `none` is `NaN` -/
  dataCount : Option ℤ
  /-- the attribute `data-suffix`, if present -/
  dataSuffix : Option String
  /-- the `textContent` -/
  text : String
  /-- whether `counterObserver` observes the element -/
  observed : Bool
  /-- bookkeeping: how many animations were started for the element -/
  started : ℕ
  deriving DecidableEq, Repr

/-- A `tick` closure waiting for the next animation frame: its element (by position in the
list of counters) and its variables `target`, `suffix` and `start`. -/
structure Tick where
  el : ℕ
  target : ℤ
  suffix : String
  start : ℚ
  deriving DecidableEq, Repr

/-- The counters and the pending `tick` callbacks. -/
structure Counters where
  els : List Counter
  ticks : List Tick
  deriving DecidableEq, Repr

/-- An entry handed to the observer callback: the position of its target, `isIntersecting`,
and what `performance.now()` returns while the entry is handled. -/
structure Entry where
  target : ℕ
  isIntersecting : Bool
  now : ℚ
  deriving DecidableEq, Repr

/-- The body of the `forEach` in the callback of `counterObserver` (lines 336-354). -/
def counterEntry (s : Counters) (e : Entry) : Counters :=
  if e.isIntersecting then
    match s.els[e.target]? with
    | none => s
    | some c =>
        match c.dataCount with
        | none => s
        | some target =>
            { els := s.els.set e.target { c with observed := false, started := c.started + 1 }
              ticks := s.ticks ++
                [{ el := e.target, target := target, suffix := c.dataSuffix.getD ""
                   start := e.now }] }
  else s

/-- The callback of `counterObserver` (lines 334-356). -/
def counterCallback (s : Counters) (entries : List Entry) : Counters :=
  entries.foldl counterEntry s

/-- The value `progress` of line 346 at the frame time `now`. -/
def tickProgress (t : Tick) (now : ℚ) : ℚ :=
  min ((now - t.start) / 2200) 1

/-- The value `current` of line 348. -/
noncomputable def tickCurrent (t : Tick) (now : ℚ) : ℤ :=
  roundReal (0 + ((t.target : ℝ) - 0) * easeOutExpo ((tickProgress t now : ℚ) : ℝ))

/-- The text written at line 349, `current + suffix`. The conversion of the number `current`
to a string is the engine's; it is the argument `str` here and in what follows. -/
noncomputable def tickText (str : ℤ → String) (t : Tick) (now : ℚ) : String :=
  str (tickCurrent t now) ++ t.suffix

/-- Whether line 350 requests another frame. -/
def tickAgain (t : Tick) (now : ℚ) : Bool :=
  decide (tickProgress t now < 1)

/-- Write the text of the counter at a position. -/
def setText (els : List Counter) (i : ℕ) (text : String) : List Counter :=
  match els[i]? with
  | some c => els.set i { c with text := text }
  | none => els

/-- An animation frame at the time `now`: every pending `tick` runs once, in order, and those
that request another frame are pending afterwards. -/
noncomputable def counterFrame (str : ℤ → String) (s : Counters) (now : ℚ) : Counters :=
  { els := s.ticks.foldl (fun els t => setText els t.el (tickText str t now)) s.els
    ticks := s.ticks.filter fun t => tickAgain t now }

/-- What can happen to the counters. -/
inductive CounterEvent where
  /-- the observer delivers a batch of entries -/
  | observed (entries : List Entry)
  /-- an animation frame with the timestamp `now` -/
  | frame (now : ℚ)
  deriving DecidableEq, Repr

/-- One event of the counters. -/
noncomputable def counterStep (str : ℤ → String) (s : Counters) : CounterEvent → Counters
  | .observed entries => counterCallback s entries
  | .frame now => counterFrame str s now

/-- The counters after a sequence of events. -/
noncomputable def counterRun (str : ℤ → String) (s : Counters)
    (events : List CounterEvent) : Counters :=
  events.foldl (counterStep str) s

/-- The counters once the script has started (lines 357-360): every element is observed,
nothing is pending. -/
def countersStart (els : List Counter) : Counters :=
  { els := els.map fun c => { c with observed := true, started := 0 }, ticks := [] }

/-- A batch the observer can deliver in the state `s`: every entry is for an element that is
observed, and no element has two entries. -/
def Delivered (s : Counters) (entries : List Entry) : Prop :=
  (∀ e ∈ entries, ∃ c, s.els[e.target]? = some c ∧ c.observed = true)
    ∧ (entries.map fun e => e.target).Nodup

/-- A sequence of events in which every batch is one the observer can deliver. -/
def DeliveredRun (str : ℤ → String) : Counters → List CounterEvent → Prop
  | _, [] => True
  | s, .observed entries :: rest =>
      Delivered s entries ∧ DeliveredRun str (counterCallback s entries) rest
  | s, .frame now :: rest => DeliveredRun str (counterFrame str s now) rest

/-! ## vCard download (lines 379-407) -/

/-- The array literal of lines 383-396. -/
def vcardLines : List String :=
  ["BEGIN:VCARD",
   "VERSION:3.0",
   "N:;;;;",
   "FN:Bundesverband für elektronische Wertpapiere e.V.",
   "ORG:Bundesverband für elektronische Wertpapiere e.V.",
   "ADR;TYPE=WORK:;;Magnusstraße 13;Köln;;50672;Germany",
   "TEL;TYPE=WORK,VOICE:+49 221 20 52-220",
   "TEL;TYPE=WORK,FAX:+49 221 20 52-1",
   "EMAIL;TYPE=WORK:info@ewpg.de",
   "URL:https://www.ewpg.de",
   "NOTE:c/o Heuking Kühn Lüer Wojtek PartGmbB",
   "END:VCARD"]

/-- The file the click handler offers for download. -/
structure Download where
  text : String
  mimeType : String
  filename : String
  deriving DecidableEq, Repr

/-- The click handler of the vCard button (lines 382-406), for the language selected when the
button is clicked. -/
def vcardDownload (_currentLang : Option String) : Download :=
  { text := String.intercalate "\r\n" vcardLines
    mimeType := "text/vcard;charset=utf-8"
    filename := "EWPG-Kontakt.vcf" }

/-- Whether a content line has the property name `name`: the name is followed by the colon
that starts the value or by the semicolon that starts a parameter. -/
def hasPropertyName (name : String) (line : String) : Bool :=
  line.toList.take (name.length + 1) = name.toList ++ [':']
    || line.toList.take (name.length + 1) = name.toList ++ [';']

/-! ## Hero node network (lines 517-632) -/

/-- The constant `CONNECTION_DIST`. -/
def CONNECTION_DIST : ℚ := 160

/-- One particle. -/
structure Node where
  x : ℚ
  y : ℚ
  vx : ℚ
  vy : ℚ
  r : ℚ
  opacity : ℚ
  deriving DecidableEq, Repr

/-- The expression assigned to `NODE_COUNT` (lines 526 and 625), for `window.innerWidth`. -/
def nodeCountFor (innerWidth : ℕ) : ℤ := min (jsRound ((innerWidth : ℚ) / 18)) 80

/-- State of the node network. -/
structure Net where
  W : ℚ
  H : ℚ
  nodes : List Node
  /-- the variable `NODE_COUNT` -/
  nodeCount : ℤ
  /-- the network's own copy of `window.scrollY` -/
  scrollY : ℚ
  /-- the variable `animId`; `none` while it is `undefined` -/
  animId : Option Nat
  isAnimating : Bool
  /-- handles of the `loop` callbacks waiting for the next animation frame -/
  pendingLoop : List Nat
  /-- the handle the next `requestAnimationFrame` call returns -/
  nextHandle : Nat
  /-- how many results of `Math.random()` have been consumed -/
  randomUsed : Nat
  deriving DecidableEq, Repr

/-- The object pushed by one pass of the loop in `createNodes`; `rnd k` is the result of the
`k`-th call of `Math.random()`. -/
def newNode (W H : ℚ) (rnd : ℕ → ℚ) (k : ℕ) : Node :=
  { x := rnd k * W
    y := rnd (k + 1) * H
    vx := (rnd (k + 2) - 0.5) * 0.35
    vy := (rnd (k + 3) - 0.5) * 0.25
    r := rnd (k + 4) * 2 + 1.2
    opacity := rnd (k + 5) * 0.5 + 0.3 }

/-- The function `createNodes()` (lines 542-554). -/
def createNodes (rnd : ℕ → ℚ) (s : Net) : Net :=
  { s with
    nodes := (List.range s.nodeCount.toNat).map fun i => newNode s.W s.H rnd (s.randomUsed + 6 * i)
    randomUsed := s.randomUsed + 6 * s.nodeCount.toNat }

/-- The function `resize()` (lines 531-540), for the hero's rectangle; the canvas size it
also sets is read by no other function. -/
def resize (W H : ℚ) (s : Net) : Net :=
  { s with W := W, H := H }

/-- One pass of the loop in `update()` (lines 590-597). -/
def updateNode (W H : ℚ) (n : Node) : Node :=
  let x := n.x + n.vx
  let y := n.y + n.vy
  let x := if x < -10 then W + 10 else x
  let x := if x > W + 10 then -10 else x
  let y := if y < -10 then H + 10 else y
  let y := if y > H + 10 then -10 else y
  { n with x := x, y := y }

/-- The function `update()` (lines 588-599). -/
def update (s : Net) : Net :=
  { s with nodes := s.nodes.map (updateNode s.W s.H) }

/-- The index pairs visited by the nested loops of `draw()` (lines 561-562), in order. -/
def drawPairs (n : ℕ) : List (ℕ × ℕ) :=
  (List.range n).flatMap fun i => (List.range' (i + 1) (n - (i + 1))).map fun j => (i, j)

/-- The node `nodes[i]`. -/
def nodeAt (nodes : List Node) (i : ℕ) : Node :=
  nodes.getD i ⟨0, 0, 0, 0, 0, 0⟩

/-- The value `dx` of line 563. -/
def pairDx (a b : Node) : ℚ := a.x - b.x

/-- The value `dy` of line 564. -/
def pairDy (a b : Node) (parallaxOffset : ℚ) : ℚ :=
  (a.y - parallaxOffset) - (b.y - parallaxOffset)

/-- The value `dist` of line 565. -/
noncomputable def pairDist (a b : Node) (parallaxOffset : ℚ) : ℝ :=
  Real.sqrt ((pairDx a b * pairDx a b
    + pairDy a b parallaxOffset * pairDy a b parallaxOffset : ℚ) : ℝ)

/-- The value `alpha` of line 567. -/
noncomputable def lineAlpha (a b : Node) (parallaxOffset : ℚ) : ℝ :=
  (1 - pairDist a b parallaxOffset / (CONNECTION_DIST : ℝ)) * 0.18

/-- A stroked connection: the indices of its two nodes, its end points and its alpha. -/
structure Line where
  i : ℕ
  j : ℕ
  x1 : ℚ
  y1 : ℚ
  x2 : ℚ
  y2 : ℚ
  alpha : ℝ

open Classical in
/-- The connection part of `draw()` (lines 558-576): the lines stroked, in order. -/
noncomputable def drawLines (nodes : List Node) (scrollY : ℚ) : List Line :=
  let parallaxOffset := scrollY * 0.08
  (drawPairs nodes.length).filterMap fun ij =>
    let a := nodeAt nodes ij.1
    let b := nodeAt nodes ij.2
    if pairDist a b parallaxOffset < (CONNECTION_DIST : ℝ) then
      some { i := ij.1, j := ij.2
             x1 := a.x, y1 := a.y - parallaxOffset
             x2 := b.x, y2 := b.y - parallaxOffset
             alpha := lineAlpha a b parallaxOffset }
    else none

/-- A filled node circle: its centre, radius and opacity. -/
structure Circle where
  x : ℚ
  y : ℚ
  r : ℚ
  opacity : ℚ
  deriving DecidableEq, Repr

/-- The node part of `draw()` (lines 579-585): the circles filled, in order. -/
def drawNodes (nodes : List Node) (scrollY : ℚ) : List Circle :=
  nodes.map fun n => { x := n.x, y := n.y - scrollY * 0.08, r := n.r, opacity := n.opacity }

/-- The function `draw()` (lines 556-586): what it paints on the cleared canvas. -/
noncomputable def draw (nodes : List Node) (scrollY : ℚ) : List Line × List Circle :=
  (drawLines nodes scrollY, drawNodes nodes scrollY)

/-- The function `loop()` (lines 601-605): `draw()` changes no variable, and the request for
the next frame returns a fresh handle. -/
def loop (s : Net) : Net :=
  let s1 := update s
  { s1 with
    animId := some s1.nextHandle
    pendingLoop := s1.pendingLoop ++ [s1.nextHandle]
    nextHandle := s1.nextHandle + 1 }

/-- The call `cancelAnimationFrame(animId)`. -/
def cancelFrame (s : Net) : Net :=
  match s.animId with
  | some h => { s with pendingLoop := s.pendingLoop.filter fun h' => h' ≠ h }
  | none => s

/-- The callback of `heroObserver` (lines 610-616) for `entries[0].isIntersecting`. -/
def heroObserved (isIntersecting : Bool) (s : Net) : Net :=
  if isIntersecting then
    if s.isAnimating then s else loop { s with isAnimating := true }
  else
    if s.isAnimating then cancelFrame { s with isAnimating := false } else s

/-- What can happen to the node network. -/
inductive NetEvent where
  /-- the window is resized: `window.innerWidth` and the size of the hero's rectangle -/
  | resize (innerWidth : ℕ) (W H : ℚ)
  /-- the page is scrolled to `y` -/
  | scroll (y : ℚ)
  /-- the intersection observer reports the hero -/
  | observed (isIntersecting : Bool)
  /-- an animation frame runs the callbacks requested before it -/
  | frame
  deriving DecidableEq, Repr

/-- One event of the node network (listeners of lines 610-627). -/
def netStep (rnd : ℕ → ℚ) (s : Net) : NetEvent → Net
  | .resize w W H => createNodes rnd { resize W H s with nodeCount := nodeCountFor w }
  | .scroll y => { s with scrollY := y }
  | .observed b => heroObserved b s
  | .frame => s.pendingLoop.foldl (fun t _ => loop t) { s with pendingLoop := [] }

/-- The network after a sequence of events. -/
def netRun (rnd : ℕ → ℚ) (s : Net) (events : List NetEvent) : Net :=
  events.foldl (netStep rnd) s

/-- The network when `initNodeNetwork` returns (lines 522-630). -/
def netInit (rnd : ℕ → ℚ) (innerWidth : ℕ) (W H : ℚ) : Net :=
  createNodes rnd
    (resize W H
      { W := 0, H := 0, nodes := [], nodeCount := nodeCountFor innerWidth, scrollY := 0
        animId := none, isAnimating := false, pendingLoop := [], nextHandle := 1
        randomUsed := 0 })

/-! ## Invariants -/

/-- The node list has `NODE_COUNT` entries, and `NODE_COUNT` lies between 0 and 80. -/
def NodesOk (s : Net) : Prop :=
  (s.nodes.length : ℤ) = s.nodeCount ∧ 0 ≤ s.nodeCount ∧ s.nodeCount ≤ 80

/-- The loop callback is pending exactly while `isAnimating` holds, once and under the handle
kept in `animId`. -/
def LoopOk (s : Net) : Prop :=
  (s.isAnimating = true → ∃ h, s.animId = some h ∧ s.pendingLoop = [h])
    ∧ (s.isAnimating = false → s.pendingLoop = [])

/-- The network after a sequence of events that follows its initialisation. -/
def netAfter (rnd : ℕ → ℚ) (innerWidth : ℕ) (W H : ℚ) (events : List NetEvent) : Net :=
  netRun rnd (netInit rnd innerWidth W H) events

/-- Either a callback is pending and the flag is set, or none is and the flag is clear. -/
def TickOk (p : ScrollPage) : Prop :=
  (p.scrollTicking = true ∧ p.pendingOnScroll = 1)
    ∨ (p.scrollTicking = false ∧ p.pendingOnScroll = 0)

/-- The scroll handler after a sequence of events that follows the start of the script. -/
def scrollAfter (p : ScrollPage) (events : List ScrollEvent) : ScrollPage :=
  scrollRun (scrollStart p) events

/-- What no frame changes of a counter: everything but its text. -/
def Counter.fixed (c : Counter) : Option ℤ × Option String × Bool × ℕ :=
  (c.dataCount, c.dataSuffix, c.observed, c.started)

/-- The state of the counters is consistent: no element was started twice, an observed
element was never started and has no pending `tick`, no element has two pending `tick`s, and
every pending `tick` carries the target and suffix of its element. -/
def CountersOk (s : Counters) : Prop :=
  (∀ i c, s.els[i]? = some c →
      c.started ≤ 1 ∧ (c.observed = true → c.started = 0 ∧ ∀ t ∈ s.ticks, t.el ≠ i))
    ∧ (s.ticks.map fun t => t.el).Nodup
    ∧ (∀ t ∈ s.ticks, ∃ c, s.els[t.el]? = some c ∧ c.dataCount = some t.target
        ∧ c.dataSuffix.getD "" = t.suffix)

/-- Whether the most recent open or close operation of a sequence was an open; a move of
focus counts as neither, and `init` is the answer for the empty sequence. -/
def lastWasOpen (init : Bool) (ops : List OverlayOp) : Bool :=
  ops.foldl
    (fun b op =>
      match op with
      | .openMobileMenu => true
      | .openModal _ => true
      | .closeMobileMenu => false
      | .closeModal _ => false
      | .escape => false
      | .focus _ => b)
    init

/-- The scroll lock as the code keeps it: set exactly while `locked` holds, and then some
overlay is open. -/
def LockOk (s : Overlays) (locked : Bool) : Prop :=
  s.bodyOverflow = (if locked then "hidden" else "")
    ∧ (locked = true → s.menuOpen = true ∨ s.openModals ≠ [])

/-! ## Sample pages -/

/-- A page with one stored foreign key, two tagged elements and the three language buttons. -/
def samplePage : Page :=
  { currentLang := some "de"
    storage := .available [("theme", "dark")]
    htmlLang := some (.str "de-DE")
    elements := [⟨"nav-about", .text "Über uns"⟩, ⟨"hero-badge", .html "Mitglieds-<br>unternehmen"⟩]
    ariaElements := [⟨"back-to-top", some (.str "Nach oben scrollen")⟩]
    langBtns := [⟨some "de", true, some "true"⟩, ⟨some "en", false, some "false"⟩,
      ⟨some "fr", false, some "false"⟩] }

/-- A page scrolled to 700 pixels, with three sections and their three menu links. -/
def sampleScrollPage : ScrollPage :=
  { scrollY := 700, scrollHeight := 4000, innerHeight := 800
    progressWidth := 0, ariaValueNow := 0, navScrolled := false, backToTop := some false
    sections := [⟨0, "hero"⟩, ⟨600, "members"⟩, ⟨1400, "about"⟩]
    navLinks := [⟨"#hero", true⟩, ⟨"#members", false⟩, ⟨"#about", false⟩]
    hasHeroBg := true, supportsScrollTimeline := false, heroH := 900, heroTranslateY := none
    scrollTicking := false, pendingOnScroll := 0, onScrollRuns := 0 }

/-- Three nodes on a horizontal line, 100 and 200 pixels apart. -/
def sampleNodes : List Node :=
  [⟨0, 0, 0, 0, 2, 0.5⟩, ⟨100, 0, 0, 0, 2, 0.5⟩, ⟨300, 0, 0, 0, 2, 0.5⟩]

/-- A fixed sequence of values in the range of `Math.random()`. -/
def sampleRandom (k : ℕ) : ℚ := ((k % 7 : ℕ) : ℚ) / 7

/-- A page at the top whose one section starts at 500 pixels, with a logo link to "#" and a
menu link to the section. -/
def bareLinkScrollPage : ScrollPage :=
  { sampleScrollPage with
    scrollY := 0
    sections := [⟨500, "about"⟩]
    navLinks := [⟨"#", false⟩, ⟨"#about", false⟩] }

/-- A page exactly as tall as the window, which cannot scroll. -/
def shortScrollPage : ScrollPage :=
  { sampleScrollPage with scrollY := 0, scrollHeight := 800, innerHeight := 800 }

/-- One counter that counts to 25 and shows a plus sign after the number. -/
def sampleCounters : List Counter :=
  [{ dataCount := some 25, dataSuffix := some "+", text := "0", observed := false, started := 0 }]

/-- Focus targets of a page: the first menu link is element 10, the imprint modal starts with
element 20 and every other modal with element 30. -/
def sampleTargets : FocusTargets :=
  { menuFirstLink := some 10
    modalFocusable := fun id => if id = "imprintModal" then some 20 else some 30 }

/-! ## Theorems: i18n engine -/

theorem lookup_setPair_self (k v : String) (items : List (String × String)) :
    (setPair k v items).lookup k = some v := by
  induction items with
  | nil => simp [setPair, List.lookup]
  | cons hd tl ih =>
    obtain ⟨k', v'⟩ := hd
    by_cases h : k' = k
    · simp [setPair, h, List.lookup]
    · have h' : (k == k') = false := by simpa using fun e => h e.symm
      simp [setPair, h, List.lookup, h', ih]

theorem lookup_setPair_of_ne (k v k2 : String) (items : List (String × String)) (h2 : k2 ≠ k) :
    (setPair k v items).lookup k2 = items.lookup k2 := by
  induction items with
  | nil =>
    have h' : (k2 == k) = false := by simpa using h2
    simp [setPair, List.lookup, h']
  | cons hd tl ih =>
    obtain ⟨k', v'⟩ := hd
    by_cases h : k' = k
    · subst h
      have h' : (k2 == k') = false := by simpa using h2
      simp [setPair, List.lookup, h']
    · simp only [setPair, h, if_false, List.lookup, ih]

theorem applyLanguage_storage (year : Nat) (lang : Option String) (p : Page) :
    (applyLanguage year lang p).page.storage =
      match p.storage.setItem "ewpg-lang" (keyOf lang) with
      | .ok s => s
      | .error _ => p.storage := by
  unfold applyLanguage
  dsimp only
  split <;> rfl

theorem applyLanguage_htmlLang (year : Nat) (lang : Option String) (p : Page) :
    (applyLanguage year lang p).page.htmlLang = some (htmlLangFor lang) := by
  unfold applyLanguage
  dsimp only
  split <;> rfl

theorem mem_of_lookup_eq_some {α : Type} (k : String) (v : α) (o : Obj α)
    (h : o.lookup k = some v) : (k, v) ∈ o := by
  induction o with
  | nil => simp [List.lookup] at h
  | cons hd tl ih =>
    obtain ⟨k', v'⟩ := hd
    by_cases hk : k = k'
    · subst hk
      simp [List.lookup] at h
      simp [h]
    · have h' : (k == k') = false := by simpa using hk
      simp only [List.lookup, h'] at h
      exact List.mem_cons_of_mem _ (ih h)

/-- Every entry of the table has the three languages, and no key of the table is a name
inherited from `Object.prototype`. -/
theorem translations_checked (year : Nat) :
    (translations year).all (fun p =>
      (p.2.lookup "de").isSome && (p.2.lookup "en").isSome && (p.2.lookup "fr").isSome
        && decide (p.1 ∉ objectPrototypeKeys)) = true := by
  rfl

/-- The table is trilingual: each entry defines a string for de, en and fr. -/
theorem translations_trilingual (year : Nat) (key : String) (entry : Obj String)
    (h : (translations year).lookup key = some entry) (lang : String)
    (hl : lang = "de" ∨ lang = "en" ∨ lang = "fr") : ∃ s, entry.lookup lang = some s := by
  have hall := translations_checked year
  rw [List.all_eq_true] at hall
  have hm := hall _ (mem_of_lookup_eq_some key entry _ h)
  simp only [Bool.and_eq_true, Option.isSome_iff_exists] at hm
  rcases hl with rfl | rfl | rfl
  · exact hm.1.1.1
  · exact hm.1.1.2
  · exact hm.1.2

theorem lookup_inherited_eq_none (year : Nat) (key : String) (h : key ∈ objectPrototypeKeys) :
    (translations year).lookup key = none := by
  cases hk : (translations year).lookup key with
  | none => rfl
  | some entry =>
    have hall := translations_checked year
    rw [List.all_eq_true] at hall
    have hm := hall _ (mem_of_lookup_eq_some key entry _ hk)
    simp only [Bool.and_eq_true, decide_eq_true_eq] at hm
    exact absurd h hm.2

theorem findText_of_table_key (year : Nat) (key lang : String) (entry : Obj String)
    (hk : (translations year).lookup key = some entry)
    (hl : lang = "de" ∨ lang = "en" ∨ lang = "fr") :
    ∃ s, entry.lookup lang = some s ∧ findText year key (some lang) = .string s := by
  obtain ⟨s, hs⟩ := translations_trilingual year key entry hk lang hl
  exact ⟨s, hs, by simp [findText, getProp, hk, keyOf, hs]⟩

theorem findText_of_unknown_key (year : Nat) (key : String) (lang : Option String)
    (hk : (translations year).lookup key = none) (hp : key ∉ objectPrototypeKeys) :
    findText year key lang = .skip := by
  simp [findText, getProp, hk, hp]

theorem findText_of_inherited_key (year : Nat) (key lang : String)
    (hp : key ∈ objectPrototypeKeys) (hl : lang = "de" ∨ lang = "en" ∨ lang = "fr") :
    findText year key (some lang) = .undefinedValue := by
  have hk := lookup_inherited_eq_none year key hp
  rcases hl with rfl | rfl | rfl <;>
    simp [findText, getProp, hk, hp, keyOf, builtinString]

/-- Away from the inherited names the loop over the tagged elements completes, and it leaves
every element with the content the table gives it. -/
theorem applyToElements_of_safe_keys (year : Nat) (lang : String)
    (hl : lang = "de" ∨ lang = "en" ∨ lang = "fr") (els : List I18nElement)
    (h : ∀ el ∈ els, el.key ∉ objectPrototypeKeys) :
    applyToElements year (some lang) els =
      (els.map (fun el => { el with content := specContent year lang el }), false) := by
  induction els with
  | nil => rfl
  | cons el rest ih =>
    have hrest := ih (fun e he => h e (List.mem_cons_of_mem _ he))
    have hel := h el (List.mem_cons_self _ _)
    cases hk : (translations year).lookup el.key with
    | none =>
      have hf := findText_of_unknown_key year el.key (some lang) hk hel
      simp [applyToElements, hf, hrest, specContent, hk]
    | some entry =>
      obtain ⟨s, hs, hf⟩ := findText_of_table_key year el.key lang entry hk hl
      simp [applyToElements, hf, hrest, specContent, hk, hs]

/-- Away from the inherited names a call for one of the three codes completes, and every
tagged element ends with the content the table gives it. -/
theorem applyLanguage_of_safe_keys (year : Nat) (lang : String)
    (hl : lang = "de" ∨ lang = "en" ∨ lang = "fr") (p : Page)
    (h : ∀ el ∈ p.elements, el.key ∉ objectPrototypeKeys) :
    (applyLanguage year (some lang) p).raised = false
    ∧ (applyLanguage year (some lang) p).page.elements
        = p.elements.map (fun el => { el with content := specContent year lang el }) := by
  unfold applyLanguage
  simp [applyToElements_of_safe_keys year lang hl p.elements h]

/-- Away from the inherited names a translation loop either skips a key or reads a string. -/
theorem findText_defined_of_safe_key (year : Nat) (key lang : String)
    (hl : lang = "de" ∨ lang = "en" ∨ lang = "fr") (hp : key ∉ objectPrototypeKeys) :
    findText year key (some lang) = .skip ∨ ∃ s, findText year key (some lang) = .string s := by
  cases hk : (translations year).lookup key with
  | none => exact Or.inl (findText_of_unknown_key year key _ hk hp)
  | some entry =>
    obtain ⟨s, _, hf⟩ := findText_of_table_key year key lang entry hk hl
    exact Or.inr ⟨s, hf⟩

/-- C1, the code at a failing input. The page tags a first element with the key "constructor"
and a second one with the table key "nav-about". The guard `translations[key]` finds the
inherited `Object`, whose property "en" is undefined, so `applyLanguage("en")` raises at the
first element and returns with the second one still showing its old text, where the claim
expects "About Us". -/
theorem applyLanguage_stops_at_inherited_key (year : Nat) (p : Page) :
    (applyLanguage year (some "en")
        { p with elements := [⟨"constructor", .text "x"⟩, ⟨"nav-about", .text "Über uns"⟩] }
      ).raised = true
    ∧ (applyLanguage year (some "en")
        { p with elements := [⟨"constructor", .text "x"⟩, ⟨"nav-about", .text "Über uns"⟩] }
      ).page.elements = [⟨"constructor", .text "x"⟩, ⟨"nav-about", .text "Über uns"⟩]
    ∧ specContent year "en" ⟨"nav-about", .text "Über uns"⟩ = .text "About Us" := by
  refine ⟨rfl, rfl, rfl⟩

/-- C2, the code at a failing input. For an element tagged with the key "toString" the value
`translations[key][lang]` is undefined for the language "de", and the call of its `indexOf`
raises; for an element tagged `data-i18n-aria` with that key the undefined value is read and
written as the label. -/
theorem applyLanguage_raises_on_inherited_key (year : Nat) (p : Page) :
    findText year "toString" (some "de") = .undefinedValue
    ∧ (applyLanguage year (some "de") { p with elements := [⟨"toString", .text "x"⟩] }
      ).raised = true
    ∧ (applyLanguage year (some "de")
        { p with elements := [], ariaElements := [⟨"toString", none⟩] }
      ).page.ariaElements = [⟨"toString", some (.str "undefined")⟩] := by
  refine ⟨rfl, rfl, rfl⟩

/-- C3: with `localStorage` available, `applyLanguage(lang)` for one of the three codes leaves
`lang` stored under "ewpg-lang", and the start-up selection run on that storage chooses
`lang`; whatever the argument and the page, a call changes the value of no other key. -/
theorem language_choice_round_trips (year : Nat) (lang : String) (p : Page)
    (items : List (String × String))
    (hl : lang = "de" ∨ lang = "en" ∨ lang = "fr") (hs : p.storage = .available items) :
    (applyLanguage year (some lang) p).page.storage.getItem "ewpg-lang" = .ok (some lang)
    ∧ initialLang (applyLanguage year (some lang) p).page.storage = lang
    ∧ ∀ (arg : Option String) (q : Page) (k : String), k ≠ "ewpg-lang" →
        (applyLanguage year arg q).page.storage.getItem k = q.storage.getItem k := by
  have hst : (applyLanguage year (some lang) p).page.storage
      = .available (setPair "ewpg-lang" lang items) := by
    rw [applyLanguage_storage, hs]; rfl
  refine ⟨?_, ?_, ?_⟩
  · rw [hst]; simp [Storage.getItem, lookup_setPair_self]
  · rw [hst]
    simp only [initialLang, Storage.getItem, lookup_setPair_self]
    rcases hl with rfl | rfl | rfl <;> simp
  · intro arg q k hk
    rw [applyLanguage_storage]
    cases hq : q.storage with
    | unavailable => rfl
    | available its => simp [Storage.setItem, Storage.getItem, lookup_setPair_of_ne _ _ _ _ hk]

/-- C3 at a sample page and the language "fr". -/
theorem language_choice_round_trips_witness :
    samplePage.storage = .available [("theme", "dark")]
    ∧ (applyLanguage 2026 (some "fr") samplePage).page.storage.getItem "ewpg-lang"
        = .ok (some "fr")
    ∧ initialLang (applyLanguage 2026 (some "fr") samplePage).page.storage = "fr"
    ∧ (applyLanguage 2026 (some "fr") samplePage).page.storage.getItem "theme"
        = .ok (some "dark") :=
  have h := language_choice_round_trips 2026 "fr" samplePage [("theme", "dark")]
    (by decide) rfl
  ⟨rfl, h.1, h.2.1, h.2.2 (some "fr") samplePage "theme" (by decide)⟩

/-- C4: the start-up language equals the stored value exactly when that value is "en", "de" or
"fr"; with no such stored value (none, another string, or a raising storage access) it is
"de". The selection is a total function, so nothing escapes it. -/
theorem initialLang_stored_or_default (st : Storage) :
    (∀ saved, st.getItem "ewpg-lang" = .ok (some saved) →
        (initialLang st = saved ↔ (saved = "en" ∨ saved = "de" ∨ saved = "fr")))
    ∧ ((¬ ∃ saved, st.getItem "ewpg-lang" = .ok (some saved)
          ∧ (saved = "en" ∨ saved = "de" ∨ saved = "fr")) → initialLang st = "de")
    ∧ initialLang .unavailable = "de" := by
  refine ⟨?_, ?_, rfl⟩
  · intro saved h
    simp only [initialLang, h]
    by_cases hs : saved = "en" ∨ saved = "de" ∨ saved = "fr"
    · simp [hs]
    · simp only [hs, if_false, iff_false]
      intro e
      exact hs (Or.inr (Or.inl e.symm))
  · intro h
    unfold initialLang
    split
    · next saved hg =>
      by_cases hs : saved = "en" ∨ saved = "de" ∨ saved = "fr"
      · exact absurd ⟨saved, hg, hs⟩ h
      · simp [hs]
    · rfl
    · rfl

theorem htmlLangFor_of_code :
    htmlLangFor (some "de") = .str "de-DE" ∧ htmlLangFor (some "en") = .str "en-US"
    ∧ htmlLangFor (some "fr") = .str "fr-FR" := by
  refine ⟨rfl, rfl, rfl⟩

/-- Away from the inherited names, every argument other than the three codes gives "de-DE". -/
theorem htmlLangFor_of_other (lang : Option String)
    (hl : keyOf lang ≠ "de" ∧ keyOf lang ≠ "en" ∧ keyOf lang ≠ "fr")
    (hp : keyOf lang ∉ objectPrototypeKeys) : htmlLangFor lang = .str "de-DE" := by
  obtain ⟨h1, h2, h3⟩ := hl
  have e1 : (keyOf lang == "de") = false := by simpa using h1
  have e2 : (keyOf lang == "en") = false := by simpa using h2
  have e3 : (keyOf lang == "fr") = false := by simpa using h3
  simp [htmlLangFor, getProp, langMap, List.lookup, e1, e2, e3, hp]

/-- C5, the code at a failing input. The claim asks for "de-DE" at every argument other than
de, en and fr. For the argument "constructor" the expression `langMap[lang] || 'de-DE'` reads
the inherited `Object` function, which is truthy, so the fallback is not taken and the `lang`
attribute receives the text of that function and not "de-DE". -/
theorem htmlLang_of_inherited_name :
    (applyLanguage 2026 (some "constructor") samplePage).page.htmlLang
      = some (.ofBuiltin "constructor")
    ∧ (applyLanguage 2026 (some "constructor") samplePage).page.htmlLang
      ≠ some (.str "de-DE") := by
  rw [applyLanguage_htmlLang]
  exact ⟨rfl, by decide⟩

/-- Away from the property names inherited from `Object.prototype` the attribute is as
intended: "de-DE" for de, "en-US" for en, "fr-FR" for fr, and the fallback "de-DE" for every
other argument (`null` included). -/
theorem applyLanguage_sets_html_lang (year : Nat) (lang : Option String) (p : Page)
    (hp : keyOf lang ∉ objectPrototypeKeys) :
    (applyLanguage year lang p).page.htmlLang =
      some (.str (if keyOf lang = "de" then "de-DE" else if keyOf lang = "en" then "en-US"
        else if keyOf lang = "fr" then "fr-FR" else "de-DE")) := by
  rw [applyLanguage_htmlLang]
  by_cases h1 : keyOf lang = "de"
  · simp [htmlLangFor, h1, getProp, langMap, List.lookup]
  by_cases h2 : keyOf lang = "en"
  · simp [htmlLangFor, h2, getProp, langMap, List.lookup]
  by_cases h3 : keyOf lang = "fr"
  · simp [htmlLangFor, h3, getProp, langMap, List.lookup]
  rw [htmlLangFor_of_other lang ⟨h1, h2, h3⟩ hp]
  simp [h1, h2, h3]

/-- The attribute at the arguments "fr", "it" and `null`. -/
theorem applyLanguage_sets_html_lang_witness :
    (applyLanguage 2026 (some "fr") samplePage).page.htmlLang = some (.str "fr-FR")
    ∧ (applyLanguage 2026 (some "it") samplePage).page.htmlLang = some (.str "de-DE")
    ∧ (applyLanguage 2026 none samplePage).page.htmlLang = some (.str "de-DE") :=
  ⟨applyLanguage_sets_html_lang 2026 (some "fr") samplePage (by decide),
    applyLanguage_sets_html_lang 2026 (some "it") samplePage (by decide),
    applyLanguage_sets_html_lang 2026 none samplePage (by decide)⟩

/-! ## Theorems: node network -/

theorem jsRound_natCast_div_eighteen (w : ℕ) : jsRound ((w : ℚ) / 18) = (((w + 9) / 18 : ℕ) : ℤ) := by
  unfold jsRound
  have h : (w : ℚ) / 18 + 1 / 2 = ((w + 9 : ℕ) : ℚ) / ((18 : ℕ) : ℚ) := by
    push_cast
    ring
  rw [h, Rat.floor_natCast_div_natCast]
  norm_cast

theorem nodeCountFor_nonneg (w : ℕ) : 0 ≤ nodeCountFor w := by
  unfold nodeCountFor
  rw [jsRound_natCast_div_eighteen]
  exact le_min (Int.natCast_nonneg _) (by norm_num)

theorem nodeCountFor_le (w : ℕ) : nodeCountFor w ≤ 80 := min_le_right _ _

theorem createNodes_length (rnd : ℕ → ℚ) (s : Net) :
    (createNodes rnd s).nodes.length = s.nodeCount.toNat := by
  simp [createNodes]

theorem update_length (s : Net) : (update s).nodes.length = s.nodes.length := by
  simp [update]

theorem nodesOk_createNodes (rnd : ℕ → ℚ) (s : Net) (h0 : 0 ≤ s.nodeCount)
    (h1 : s.nodeCount ≤ 80) : NodesOk (createNodes rnd s) := by
  refine ⟨?_, h0, h1⟩
  rw [createNodes_length]
  exact Int.toNat_of_nonneg h0

theorem nodesOk_loop (s : Net) (h : NodesOk s) : NodesOk (loop s) := by
  obtain ⟨h1, h2, h3⟩ := h
  refine ⟨?_, h2, h3⟩
  simpa [loop, update] using h1

theorem nodesOk_foldl_loop (l : List ℕ) (s : Net) (h : NodesOk s) :
    NodesOk (l.foldl (fun t _ => loop t) s) := by
  induction l generalizing s with
  | nil => exact h
  | cons _ tl ih => exact ih _ (nodesOk_loop s h)

theorem nodesOk_step (rnd : ℕ → ℚ) (s : Net) (e : NetEvent) (h : NodesOk s) :
    NodesOk (netStep rnd s e) := by
  cases e with
  | resize w W H => exact nodesOk_createNodes rnd _ (nodeCountFor_nonneg w) (nodeCountFor_le w)
  | scroll y => exact h
  | observed b =>
    show NodesOk (heroObserved b s)
    unfold heroObserved
    split
    · split
      · exact h
      · exact nodesOk_loop _ h
    · split
      · unfold cancelFrame
        split <;> exact h
      · exact h
  | frame => exact nodesOk_foldl_loop _ _ h

theorem nodesOk_run (rnd : ℕ → ℚ) (events : List NetEvent) (s : Net) (h : NodesOk s) :
    NodesOk (netRun rnd s events) := by
  induction events generalizing s with
  | nil => exact h
  | cons e tl ih => exact ih _ (nodesOk_step rnd s e h)

theorem nodesOk_init (rnd : ℕ → ℚ) (w : ℕ) (W H : ℚ) : NodesOk (netInit rnd w W H) :=
  nodesOk_createNodes rnd _ (nodeCountFor_nonneg w) (nodeCountFor_le w)

/-- C6: for every window width `NODE_COUNT` is `min(round(w / 18), 80)`, which is the integer
`min((w + 9) div 18, 80)` and at most 80; `createNodes`, at initialisation and on every resize
event, leaves exactly `NODE_COUNT` nodes; after any sequence of events the node list has
`NODE_COUNT` entries, hence at most 80; and `update()` keeps the length of the list. -/
theorem node_count_bounded (rnd : ℕ → ℚ) (w0 : ℕ) (W0 H0 : ℚ) (events : List NetEvent) :
    (∀ w : ℕ, nodeCountFor w = min (jsRound ((w : ℚ) / 18)) 80
        ∧ nodeCountFor w = min (((w + 9) / 18 : ℕ) : ℤ) 80 ∧ nodeCountFor w ≤ 80)
    ∧ ((netInit rnd w0 W0 H0).nodes.length : ℤ) = nodeCountFor w0
    ∧ (∀ (s : Net) (w : ℕ) (W H : ℚ),
        ((netStep rnd s (.resize w W H)).nodes.length : ℤ) = nodeCountFor w
        ∧ (netStep rnd s (.resize w W H)).nodeCount = nodeCountFor w)
    ∧ ((netAfter rnd w0 W0 H0 events).nodes.length : ℤ)
        = (netAfter rnd w0 W0 H0 events).nodeCount
    ∧ (netAfter rnd w0 W0 H0 events).nodes.length ≤ 80
    ∧ ∀ s : Net, (update s).nodes.length = s.nodes.length := by
  have hrun : NodesOk (netAfter rnd w0 W0 H0 events) :=
    nodesOk_run rnd events _ (nodesOk_init rnd w0 W0 H0)
  refine ⟨?_, ?_, ?_, hrun.1, ?_, update_length⟩
  · intro w
    refine ⟨rfl, ?_, nodeCountFor_le w⟩
    unfold nodeCountFor
    rw [jsRound_natCast_div_eighteen]
  · exact (nodesOk_init rnd w0 W0 H0).1
  · intro s w W H
    exact ⟨(nodesOk_createNodes rnd { resize W H s with nodeCount := nodeCountFor w }
      (nodeCountFor_nonneg w) (nodeCountFor_le w)).1, rfl⟩
  · have h2 : ((netAfter rnd w0 W0 H0 events).nodes.length : ℤ) ≤ 80 := by
      rw [hrun.1]
      exact hrun.2.2
    exact_mod_cast h2

/-- C6 at sample widths: 900 pixels give 50 nodes, 1431 pixels and more give 80; a network
started at 1440 pixels and resized to 900 has 50 nodes. -/
theorem node_count_bounded_witness :
    nodeCountFor 900 = 50 ∧ nodeCountFor 1431 = 80 ∧ nodeCountFor 4000 = 80
    ∧ ((netInit sampleRandom 1440 1440 800).nodes.length : ℤ) = 80
    ∧ ((netAfter sampleRandom 1440 1440 800
          [.observed true, .frame, .resize 900 900 600, .frame]).nodes.length : ℤ) = 50 := by
  have h := node_count_bounded sampleRandom 1440 1440 800
    [.observed true, .frame, .resize 900 900 600, .frame]
  have e900 : nodeCountFor 900 = 50 := by rw [(h.1 900).2.1]; decide
  have e1440 : nodeCountFor 1440 = 80 := by rw [(h.1 1440).2.1]; decide
  refine ⟨e900, ?_, ?_, ?_, ?_⟩
  · rw [(h.1 1431).2.1]; decide
  · rw [(h.1 4000).2.1]; decide
  · rw [h.2.1, e1440]
  · rw [h.2.2.2.1]
    exact e900

theorem loopOk_loop_of_idle (s : Net) (hp : s.pendingLoop = []) (ha : s.isAnimating = true) :
    LoopOk (loop s) := by
  refine ⟨fun _ => ⟨s.nextHandle, rfl, ?_⟩, fun h => ?_⟩
  · simp [loop, update, hp]
  · have : (loop s).isAnimating = s.isAnimating := rfl
    rw [this, ha] at h
    exact absurd h (by decide)

theorem loopOk_step (rnd : ℕ → ℚ) (s : Net) (e : NetEvent) (h : LoopOk s) :
    LoopOk (netStep rnd s e) := by
  cases e with
  | resize w W H => exact h
  | scroll y => exact h
  | observed b =>
    show LoopOk (heroObserved b s)
    unfold heroObserved
    cases hb : b <;> cases ha : s.isAnimating
    · simpa [ha] using h
    · obtain ⟨k, hk, hpend⟩ := h.1 ha
      simp only [Bool.false_eq_true, if_false, if_true]
      refine ⟨fun hc => ?_, fun _ => ?_⟩
      · simp [cancelFrame, hk] at hc
      · simp [cancelFrame, hk, hpend]
    · simp only [Bool.false_eq_true, if_false, if_true]
      exact loopOk_loop_of_idle _ (h.2 ha) rfl
    · simpa [ha] using h
  | frame =>
    show LoopOk (s.pendingLoop.foldl (fun t _ => loop t) { s with pendingLoop := [] })
    cases ha : s.isAnimating
    · rw [h.2 ha]
      refine ⟨fun hc => ?_, fun _ => rfl⟩
      simp [ha] at hc
    · obtain ⟨k, _, hpend⟩ := h.1 ha
      rw [hpend]
      exact loopOk_loop_of_idle _ rfl rfl

theorem loopOk_run (rnd : ℕ → ℚ) (events : List NetEvent) (s : Net) (h : LoopOk s) :
    LoopOk (netRun rnd s events) := by
  induction events generalizing s with
  | nil => exact h
  | cons e tl ih => exact ih _ (loopOk_step rnd s e h)

theorem loopOk_init (rnd : ℕ → ℚ) (w : ℕ) (W H : ℚ) : LoopOk (netInit rnd w W H) := by
  refine ⟨fun h => ?_, fun _ => rfl⟩
  simp [netInit, createNodes, resize] at h

theorem loopOk_after (rnd : ℕ → ℚ) (w : ℕ) (W H : ℚ) (events : List NetEvent) :
    LoopOk (netAfter rnd w W H events) :=
  loopOk_run rnd events _ (loopOk_init rnd w W H)

theorem loopOk_pending (s : Net) (h : LoopOk s) :
    s.pendingLoop.length ≤ 1 ∧ (s.isAnimating = true ↔ s.pendingLoop.length = 1) := by
  cases ha : s.isAnimating
  · simp [h.2 ha]
  · obtain ⟨k, _, hpend⟩ := h.1 ha
    simp [hpend]

/-- C8: after any sequence of resize, scroll, observer and frame events, at most one `loop`
callback is pending, and `isAnimating` holds exactly when one is; an event that finds no
callback pending and leaves one pending is an intersecting observer callback; an intersecting
callback that finds the loop running changes nothing; and after a non-intersecting callback
no `loop` callback is pending and `isAnimating` is false. -/
theorem loop_gated_by_visibility (rnd : ℕ → ℚ) (w0 : ℕ) (W0 H0 : ℚ) (events : List NetEvent)
    (e : NetEvent) :
    (netAfter rnd w0 W0 H0 events).pendingLoop.length ≤ 1
    ∧ ((netAfter rnd w0 W0 H0 events).isAnimating = true
        ↔ (netAfter rnd w0 W0 H0 events).pendingLoop.length = 1)
    ∧ ((netAfter rnd w0 W0 H0 events).pendingLoop = [] →
        (netStep rnd (netAfter rnd w0 W0 H0 events) e).pendingLoop ≠ [] → e = .observed true)
    ∧ ((netAfter rnd w0 W0 H0 events).pendingLoop ≠ [] →
        netStep rnd (netAfter rnd w0 W0 H0 events) (.observed true)
          = netAfter rnd w0 W0 H0 events)
    ∧ (netStep rnd (netAfter rnd w0 W0 H0 events) (.observed false)).pendingLoop = []
    ∧ (netStep rnd (netAfter rnd w0 W0 H0 events) (.observed false)).isAnimating = false := by
  have hok := loopOk_after rnd w0 W0 H0 events
  have hoff := loopOk_step rnd _ (.observed false) hok
  generalize netAfter rnd w0 W0 H0 events = s at hok hoff
  have hoff2 : (netStep rnd s (.observed false)).isAnimating = false := by
    show (heroObserved false s).isAnimating = false
    unfold heroObserved
    cases ha : s.isAnimating
    · simp [ha]
    · simp only [Bool.false_eq_true, if_false, if_true, cancelFrame]
      split <;> rfl
  refine ⟨(loopOk_pending s hok).1, (loopOk_pending s hok).2, ?_, ?_, hoff.2 hoff2, hoff2⟩
  · intro hp hne
    cases e with
    | resize w W H => exact absurd hp hne
    | scroll y => exact absurd hp hne
    | observed b =>
      cases b with
      | true => rfl
      | false => exact absurd (hoff.2 hoff2) hne
    | frame =>
      exfalso
      apply hne
      show (s.pendingLoop.foldl (fun t _ => loop t) { s with pendingLoop := [] }).pendingLoop = []
      rw [hp]
      rfl
  · intro hne
    have ha : s.isAnimating = true := by
      cases hb : s.isAnimating
      · exact absurd (hok.2 hb) hne
      · rfl
    show heroObserved true s = s
    simp [heroObserved, ha]

/-- C8 on a sample run: the hero comes into view, two frames pass, the hero is reported in
view once more and then leaves the viewport. -/
theorem loop_gated_by_visibility_witness :
    (netAfter sampleRandom 1440 1440 800 []).pendingLoop = []
    ∧ (netAfter sampleRandom 1440 1440 800 [.observed true]).pendingLoop = [1]
    ∧ (netAfter sampleRandom 1440 1440 800 [.observed true, .frame, .frame]).pendingLoop = [3]
    ∧ netStep sampleRandom (netAfter sampleRandom 1440 1440 800 [.observed true, .frame, .frame])
        (.observed true)
      = netAfter sampleRandom 1440 1440 800 [.observed true, .frame, .frame]
    ∧ (netStep sampleRandom
        (netAfter sampleRandom 1440 1440 800 [.observed true, .frame, .frame])
        (.observed false)).pendingLoop = [] := by
  have h := loop_gated_by_visibility sampleRandom 1440 1440 800 [.observed true, .frame, .frame]
    .frame
  have h3 : (netAfter sampleRandom 1440 1440 800 [.observed true, .frame, .frame]).pendingLoop
      = [3] := by decide
  exact ⟨by decide, by decide, h3, h.2.2.2.1 (by rw [h3]; decide), h.2.2.2.2.1⟩

/-! ## Theorems: scroll handler -/

theorem onScroll_pending (p : ScrollPage) : (onScroll p).pendingOnScroll = p.pendingOnScroll :=
  rfl

theorem onScroll_ticking (p : ScrollPage) : (onScroll p).scrollTicking = false := rfl

theorem onScroll_runs (p : ScrollPage) : (onScroll p).onScrollRuns = p.onScrollRuns + 1 := rfl

theorem tickOk_scroll (p : ScrollPage) (y : ℚ) (h : TickOk p) :
    TickOk (scrollStep p (.scroll y))
      ∧ (scrollStep p (.scroll y)).pendingOnScroll = 1
      ∧ (scrollStep p (.scroll y)).onScrollRuns = p.onScrollRuns := by
  show TickOk (scrollListener { p with scrollY := y }) ∧ _
  rcases h with ⟨ht, hp⟩ | ⟨ht, hp⟩
  · simp [scrollStep, scrollListener, ht, hp, TickOk]
  · simp [scrollStep, scrollListener, ht, hp, TickOk]

theorem tickOk_frame (p : ScrollPage) (h : TickOk p) :
    TickOk (scrollStep p .frame)
      ∧ (scrollStep p .frame).pendingOnScroll = 0
      ∧ (scrollStep p .frame).onScrollRuns = p.onScrollRuns + p.pendingOnScroll := by
  rcases h with ⟨ht, hp⟩ | ⟨ht, hp⟩
  · have e : scrollStep p .frame = onScroll { p with pendingOnScroll := 0 } := by
      simp [scrollStep, hp]
    rw [e, hp]
    exact ⟨Or.inr ⟨rfl, rfl⟩, rfl, rfl⟩
  · have e : scrollStep p .frame = { p with pendingOnScroll := 0 } := by
      simp [scrollStep, hp]
    rw [e, hp]
    exact ⟨Or.inr ⟨ht, rfl⟩, rfl, rfl⟩

theorem tickOk_step (p : ScrollPage) (e : ScrollEvent) (h : TickOk p) :
    TickOk (scrollStep p e) := by
  cases e with
  | scroll y => exact (tickOk_scroll p y h).1
  | frame => exact (tickOk_frame p h).1

theorem tickOk_run (events : List ScrollEvent) (p : ScrollPage) (h : TickOk p) :
    TickOk (scrollRun p events) := by
  induction events generalizing p with
  | nil => exact h
  | cons e tl ih => exact ih _ (tickOk_step p e h)

theorem tickOk_after (p : ScrollPage) (events : List ScrollEvent) :
    TickOk (scrollAfter p events) :=
  tickOk_run events _ (Or.inr ⟨rfl, rfl⟩)

theorem scrolls_keep_one_pending (ys : List ℚ) (p : ScrollPage) (h : TickOk p)
    (hp : p.pendingOnScroll = 1) :
    TickOk (scrollRun p (ys.map .scroll))
      ∧ (scrollRun p (ys.map .scroll)).pendingOnScroll = 1
      ∧ (scrollRun p (ys.map .scroll)).onScrollRuns = p.onScrollRuns := by
  induction ys generalizing p with
  | nil => exact ⟨h, hp, rfl⟩
  | cons y tl ih =>
    obtain ⟨h1, h2, h3⟩ := tickOk_scroll p y h
    obtain ⟨g1, g2, g3⟩ := ih _ h1 h2
    exact ⟨g1, g2, g3.trans h3⟩

/-- C9: after any sequence of scroll events and animation frames at most one `onScroll`
callback is pending, and `scrollTicking` holds exactly when one is; one or more scroll events
followed by a frame make `onScroll` run exactly once, and a further frame without a scroll
event runs nothing; a scroll event that finds no callback pending leaves one pending. -/
theorem scroll_handler_frame_throttled (p0 : ScrollPage) (events : List ScrollEvent) (y : ℚ)
    (ys : List ℚ) :
    (scrollAfter p0 events).pendingOnScroll ≤ 1
    ∧ ((scrollAfter p0 events).scrollTicking = true
        ↔ (scrollAfter p0 events).pendingOnScroll = 1)
    ∧ (scrollRun (scrollAfter p0 events) ((y :: ys).map .scroll ++ [.frame])).onScrollRuns
        = (scrollAfter p0 events).onScrollRuns + 1
    ∧ (scrollStep (scrollStep (scrollAfter p0 events) .frame) .frame).onScrollRuns
        = (scrollStep (scrollAfter p0 events) .frame).onScrollRuns
    ∧ ((scrollAfter p0 events).pendingOnScroll = 0 →
        (scrollStep (scrollAfter p0 events) (.scroll y)).pendingOnScroll = 1
        ∧ (scrollStep (scrollAfter p0 events) (.scroll y)).scrollTicking = true) := by
  have hok := tickOk_after p0 events
  generalize scrollAfter p0 events = s at hok
  refine ⟨?_, ?_, ?_, ?_, ?_⟩
  · rcases hok with ⟨_, hp⟩ | ⟨_, hp⟩ <;> simp [hp]
  · rcases hok with ⟨ht, hp⟩ | ⟨ht, hp⟩ <;> simp [ht, hp]
  · obtain ⟨h1, h2, h3⟩ := tickOk_scroll s y hok
    obtain ⟨g1, g2, g3⟩ := scrolls_keep_one_pending ys _ h1 h2
    obtain ⟨_, _, f3⟩ := tickOk_frame _ g1
    simp only [List.map_cons, List.cons_append, scrollRun, List.foldl_cons, List.foldl_append,
      List.foldl_nil] at *
    rw [f3, g2, g3, h3]
  · obtain ⟨h1, h2, _⟩ := tickOk_frame s hok
    obtain ⟨_, _, f3⟩ := tickOk_frame _ h1
    rw [f3, h2, Nat.add_zero]
  · intro _
    obtain ⟨h1, h2, _⟩ := tickOk_scroll s y hok
    refine ⟨h2, ?_⟩
    rcases h1 with ⟨ht, _⟩ | ⟨_, hp⟩
    · exact ht
    · rw [hp] at h2; exact absurd h2 (by decide)

/-- C9 on a sample run: three scroll events before one frame cause one run of `onScroll`
beyond the run at the start of the script. -/
theorem scroll_handler_frame_throttled_witness :
    (scrollAfter sampleScrollPage []).onScrollRuns = 1
    ∧ (scrollAfter sampleScrollPage [.scroll 10, .scroll 20, .scroll 30]).pendingOnScroll = 1
    ∧ (scrollAfter sampleScrollPage [.scroll 10, .scroll 20, .scroll 30, .frame]).onScrollRuns
        = 2
    ∧ (scrollAfter sampleScrollPage [.scroll 10, .scroll 20, .scroll 30, .frame]
        ).pendingOnScroll = 0 := by
  have h := scroll_handler_frame_throttled sampleScrollPage [] 10 [20, 30]
  have h0 : (scrollAfter sampleScrollPage []).onScrollRuns = 1 := by decide
  refine ⟨h0, by decide, ?_, by decide⟩
  have h3 := h.2.2.1
  rw [h0] at h3
  exact h3

theorem scrollSpyCurrent_append (pos : ℚ) (l : List Section) (s : Section) :
    scrollSpyCurrent pos (l ++ [s])
      = if (s.offsetTop : ℚ) ≤ pos then s.id else scrollSpyCurrent pos l := by
  simp [scrollSpyCurrent, List.foldl_append]

theorem scrollSpyCurrent_of_none (pos : ℚ) (l : List Section)
    (h : ∀ s ∈ l, ¬ (s.offsetTop : ℚ) ≤ pos) : scrollSpyCurrent pos l = "" := by
  induction l using List.reverseRecOn with
  | nil => rfl
  | append_singleton l s ih =>
    rw [scrollSpyCurrent_append, if_neg (h s (by simp))]
    exact ih (fun t ht => h t (by simp [ht]))

/-- In a list ordered by `offsetTop` the loop ends on a qualifying section of greatest
`offsetTop`, whenever some section qualifies. -/
theorem scrollSpyCurrent_of_sorted (pos : ℚ) (l : List Section)
    (hs : l.Pairwise (fun a b => a.offsetTop ≤ b.offsetTop))
    (hq : ∃ s ∈ l, (s.offsetTop : ℚ) ≤ pos) :
    ∃ s ∈ l, s.id = scrollSpyCurrent pos l ∧ (s.offsetTop : ℚ) ≤ pos
      ∧ ∀ t ∈ l, (t.offsetTop : ℚ) ≤ pos → t.offsetTop ≤ s.offsetTop := by
  induction l using List.reverseRecOn with
  | nil => simp at hq
  | append_singleton l s ih =>
    rw [List.pairwise_append] at hs
    obtain ⟨hl, _, hls⟩ := hs
    rw [scrollSpyCurrent_append]
    by_cases hsq : (s.offsetTop : ℚ) ≤ pos
    · rw [if_pos hsq]
      refine ⟨s, by simp, rfl, hsq, ?_⟩
      intro t ht _
      rcases List.mem_append.1 ht with h | h
      · exact hls t h s (by simp)
      · rw [List.mem_singleton.1 h]
    · rw [if_neg hsq]
      have hq' : ∃ u ∈ l, (u.offsetTop : ℚ) ≤ pos := by
        obtain ⟨u, hu, huq⟩ := hq
        rcases List.mem_append.1 hu with h | h
        · exact ⟨u, h, huq⟩
        · rw [List.mem_singleton.1 h] at huq
          exact absurd huq hsq
      obtain ⟨u, hu, hid, huq, hmax⟩ := ih hl hq'
      refine ⟨u, List.mem_append_left _ hu, hid, huq, ?_⟩
      intro t ht htq
      rcases List.mem_append.1 ht with h | h
      · exact hmax t h htq
      · rw [List.mem_singleton.1 h] at htq
        exact absurd htq hsq

theorem length_le_one_of_nodup_of_const {α : Type} (c : α) (l : List α) (hn : l.Nodup)
    (hc : ∀ x ∈ l, x = c) : l.length ≤ 1 := by
  match l, hn, hc with
  | [], _, _ => simp
  | [_], _, _ => simp
  | a :: b :: tl, hn, hc =>
    have ha := hc a (by simp)
    have hb := hc b (by simp)
    rw [List.nodup_cons] at hn
    exact absurd (by simp [ha, hb]) hn.1

theorem markNavLinks_href (current : String) (links : List NavLink) :
    (markNavLinks current links).map (fun l => l.href) = links.map (fun l => l.href) := by
  simp [markNavLinks, Function.comp_def]

theorem markNavLinks_active (current : String) (links : List NavLink) :
    ∀ l ∈ markNavLinks current links, (l.isActive = true ↔ l.href = "#" ++ current) := by
  intro l hl
  simp only [markNavLinks, List.mem_map] at hl
  obtain ⟨l0, _, rfl⟩ := hl
  simp

theorem markNavLinks_at_most_one (current : String) (links : List NavLink)
    (hn : (links.map (fun l => l.href)).Nodup) :
    ((markNavLinks current links).filter (fun l => l.isActive)).length ≤ 1 := by
  have hsub : (((markNavLinks current links).filter (fun l => l.isActive)).map
      (fun l => l.href)).Sublist (links.map (fun l => l.href)) := by
    rw [← markNavLinks_href current links]
    exact (List.filter_sublist _).map _
  have hnd := hn.sublist hsub
  have hlen := length_le_one_of_nodup_of_const ("#" ++ current) _ hnd (by
    intro x hx
    simp only [List.mem_map, List.mem_filter] at hx
    obtain ⟨l, ⟨hl, hact⟩, rfl⟩ := hx
    exact (markNavLinks_active current links l hl).1 hact)
  simpa using hlen

/-- C10, counterexample. On a page scrolled to the top whose one section starts at 500 pixels
no section has `offsetTop <= scrollY + 120`, so there is no current section; all the same
`onScroll` marks the link with the bare href "#" as active, a href that is "#" followed by
the id of no section of the page. -/
theorem bare_link_active_without_section :
    (∀ s ∈ bareLinkScrollPage.sections, ¬ (s.offsetTop : ℚ) ≤ bareLinkScrollPage.scrollY + 120)
    ∧ (onScroll bareLinkScrollPage).navLinks = [⟨"#", true⟩, ⟨"#about", false⟩]
    ∧ (∀ s ∈ bareLinkScrollPage.sections, ("#" : String) ≠ "#" ++ s.id) := by
  refine ⟨?_, ?_, ?_⟩
  · intro s hs
    simp only [bareLinkScrollPage, List.mem_singleton] at hs
    subst hs
    norm_num [bareLinkScrollPage]
  · have h : scrollSpyCurrent (bareLinkScrollPage.scrollY + 120) bareLinkScrollPage.sections
        = "" := by
      norm_num [scrollSpyCurrent, bareLinkScrollPage]
    have hnav : (onScroll bareLinkScrollPage).navLinks
        = markNavLinks (scrollSpyCurrent (bareLinkScrollPage.scrollY + 120)
            bareLinkScrollPage.sections) bareLinkScrollPage.navLinks := rfl
    rw [hnav, h]
    decide
  · intro s hs
    simp only [bareLinkScrollPage, List.mem_singleton] at hs
    subst hs
    decide

/-- C10, amended: for every scroll position and every section list in ascending `offsetTop`
order, `onScroll` keeps every link's href and marks the links as follows. When no section has
`offsetTop <= scrollY + 120`, a link is `is-active` exactly when its href is the bare "#".
Otherwise there is a current section: a section with `offsetTop <= scrollY + 120` whose
`offsetTop` is the greatest among those, and a link is `is-active` exactly when its href is
"#" followed by the id of that section. In both cases, with distinct hrefs at most one link
is active. -/
theorem scroll_spy_marks_current (p : ScrollPage)
    (hs : p.sections.Pairwise (fun a b => a.offsetTop ≤ b.offsetTop)) :
    ((∀ s ∈ p.sections, ¬ (s.offsetTop : ℚ) ≤ p.scrollY + 120) →
        ∀ l ∈ (onScroll p).navLinks, (l.isActive = true ↔ l.href = "#"))
    ∧ ((∃ s ∈ p.sections, (s.offsetTop : ℚ) ≤ p.scrollY + 120) →
        ∃ s ∈ p.sections, (s.offsetTop : ℚ) ≤ p.scrollY + 120
          ∧ (∀ t ∈ p.sections, (t.offsetTop : ℚ) ≤ p.scrollY + 120 →
              t.offsetTop ≤ s.offsetTop)
          ∧ ∀ l ∈ (onScroll p).navLinks, (l.isActive = true ↔ l.href = "#" ++ s.id))
    ∧ (onScroll p).navLinks.map (fun l => l.href) = p.navLinks.map (fun l => l.href)
    ∧ ((p.navLinks.map (fun l => l.href)).Nodup →
        ((onScroll p).navLinks.filter (fun l => l.isActive)).length ≤ 1) := by
  have hnav : (onScroll p).navLinks
      = markNavLinks (scrollSpyCurrent (p.scrollY + 120) p.sections) p.navLinks := rfl
  rw [hnav]
  refine ⟨?_, ?_, markNavLinks_href _ _, markNavLinks_at_most_one _ _⟩
  · intro hnone l hl
    have h := markNavLinks_active _ _ l hl
    rw [scrollSpyCurrent_of_none _ _ hnone] at h
    simpa using h
  · intro hq
    obtain ⟨s, hsm, hid, hsq, hmax⟩ := scrollSpyCurrent_of_sorted _ _ hs hq
    refine ⟨s, hsm, hsq, hmax, ?_⟩
    intro l hl
    rw [hid]
    exact markNavLinks_active _ _ l hl

/-- C10 amended, at a sample page scrolled to 700 pixels: the section "members" at 600 is the
current one, its link is the one active link, and the hrefs are kept. -/
theorem scroll_spy_marks_current_witness :
    sampleScrollPage.sections.Pairwise (fun a b => a.offsetTop ≤ b.offsetTop)
    ∧ (onScroll sampleScrollPage).navLinks
        = [⟨"#hero", false⟩, ⟨"#members", true⟩, ⟨"#about", false⟩]
    ∧ (onScroll sampleScrollPage).navLinks.map (fun l => l.href)
        = sampleScrollPage.navLinks.map (fun l => l.href)
    ∧ ((onScroll sampleScrollPage).navLinks.filter (fun l => l.isActive)).length ≤ 1 :=
  have hs : sampleScrollPage.sections.Pairwise (fun a b => a.offsetTop ≤ b.offsetTop) := by
    simp [sampleScrollPage]
  have hc : scrollSpyCurrent (sampleScrollPage.scrollY + 120) sampleScrollPage.sections
      = "members" := by
    norm_num [scrollSpyCurrent, sampleScrollPage]
  have hnav : (onScroll sampleScrollPage).navLinks
      = markNavLinks (scrollSpyCurrent (sampleScrollPage.scrollY + 120)
          sampleScrollPage.sections) sampleScrollPage.navLinks := rfl
  have h := scroll_spy_marks_current sampleScrollPage hs
  ⟨hs, by rw [hnav, hc]; decide, h.2.2.1, h.2.2.2 (by decide)⟩

/-! ## Theorems: connection lines -/

theorem mem_drawPairs (n i j : ℕ) : (i, j) ∈ drawPairs n ↔ i < j ∧ j < n := by
  simp only [drawPairs, List.mem_flatMap, List.mem_range, List.mem_map, List.mem_range'_1,
    Prod.mk.injEq]
  constructor
  · rintro ⟨a, ha, b, ⟨hb1, hb2⟩, rfl, rfl⟩
    omega
  · rintro ⟨h1, h2⟩
    exact ⟨i, by omega, j, ⟨by omega, by omega⟩, rfl, rfl⟩

theorem nodup_drawPairs (n : ℕ) : (drawPairs n).Nodup := by
  unfold drawPairs
  rw [List.nodup_flatMap]
  constructor
  · intro i _
    exact (List.nodup_range' _ _).map (fun a b h => (Prod.mk.inj h).2)
  · refine (List.nodup_range n).imp ?_
    intro a b hab
    simp only [Function.onFun]
    intro x hx1 hx2
    simp only [List.mem_map] at hx1 hx2
    obtain ⟨_, _, rfl⟩ := hx1
    obtain ⟨_, _, h⟩ := hx2
    exact hab (Prod.mk.inj h).1.symm

theorem pairDy_parallax (a b : Node) (p : ℚ) : pairDy a b p = a.y - b.y := by
  unfold pairDy
  ring

theorem pairDist_eq (a b : Node) (p : ℚ) :
    pairDist a b p = Real.sqrt (((a.x - b.x) ^ 2 + (a.y - b.y) ^ 2 : ℚ) : ℝ) := by
  unfold pairDist
  rw [pairDy_parallax]
  unfold pairDx
  congr 2
  ring

theorem pairDist_lt_iff (a b : Node) (p : ℚ) :
    pairDist a b p < (CONNECTION_DIST : ℝ) ↔ (a.x - b.x) ^ 2 + (a.y - b.y) ^ 2 < 160 ^ 2 := by
  rw [pairDist_eq]
  have h160 : (CONNECTION_DIST : ℝ) = 160 := by
    unfold CONNECTION_DIST
    norm_num
  rw [h160, Real.sqrt_lt' (by norm_num)]
  have hc : ((160 : ℝ)) ^ 2 = (((160 : ℚ) ^ 2 : ℚ) : ℝ) := by norm_num
  rw [hc, Rat.cast_lt]

theorem lineAlpha_bounds (a b : Node) (p : ℚ) (h : pairDist a b p < (CONNECTION_DIST : ℝ)) :
    0 < lineAlpha a b p ∧ lineAlpha a b p ≤ 0.18 := by
  have h160 : (CONNECTION_DIST : ℝ) = 160 := by
    unfold CONNECTION_DIST
    norm_num
  have h0 : 0 ≤ pairDist a b p := Real.sqrt_nonneg _
  unfold lineAlpha
  rw [h160] at h ⊢
  constructor
  · have : pairDist a b p / 160 < 1 := by
      rw [div_lt_one (by norm_num)]
      exact h
    nlinarith
  · have : 0 ≤ pairDist a b p / 160 := div_nonneg h0 (by norm_num)
    nlinarith

theorem filterMap_map_sublist {α β : Type} (f : α → Option β) (g : β → α)
    (h : ∀ x y, f x = some y → g y = x) (l : List α) : ((l.filterMap f).map g).Sublist l := by
  induction l with
  | nil => simp
  | cons x tl ih =>
    cases hx : f x with
    | none =>
      rw [List.filterMap_cons_none hx]
      exact ih.cons _
    | some y =>
      rw [List.filterMap_cons_some hx, List.map_cons, h x y hx]
      exact ih.cons₂ _

theorem filterMap_map_congr {α β γ : Type} (f1 f2 : α → Option β) (g : β → γ)
    (h : ∀ x, (f1 x).map g = (f2 x).map g) (l : List α) :
    (l.filterMap f1).map g = (l.filterMap f2).map g := by
  induction l with
  | nil => rfl
  | cons x tl ih =>
    have hx := h x
    cases h1 : f1 x <;> cases h2 : f2 x <;> rw [h1, h2] at hx <;>
      simp [List.filterMap_cons, h1, h2, ih] at hx ⊢
    exact hx

open Classical in
theorem mem_drawLines (nodes : List Node) (scrollY : ℚ) (l : Line) :
    l ∈ drawLines nodes scrollY ↔
      (l.i, l.j) ∈ drawPairs nodes.length
      ∧ pairDist (nodeAt nodes l.i) (nodeAt nodes l.j) (scrollY * 0.08) < (CONNECTION_DIST : ℝ)
      ∧ l = { i := l.i, j := l.j
              x1 := (nodeAt nodes l.i).x, y1 := (nodeAt nodes l.i).y - scrollY * 0.08
              x2 := (nodeAt nodes l.j).x, y2 := (nodeAt nodes l.j).y - scrollY * 0.08
              alpha := lineAlpha (nodeAt nodes l.i) (nodeAt nodes l.j) (scrollY * 0.08) } := by
  unfold drawLines
  simp only [List.mem_filterMap]
  constructor
  · rintro ⟨⟨i, j⟩, hij, h⟩
    dsimp only at h
    split at h
    · next hlt =>
      cases h
      exact ⟨hij, hlt, rfl⟩
    · cases h
  · rintro ⟨hij, hlt, hl⟩
    refine ⟨(l.i, l.j), hij, ?_⟩
    dsimp only
    rw [if_pos hlt, ← hl]

/-- C7, in exact arithmetic: the nested loops of `draw()` visit exactly the index pairs
`i < j` below the number of nodes, each once. A line joins the nodes `i` and `j` exactly when
`i < j` is such a pair and `dx^2 + dy^2 < 160^2` for the differences of their coordinates,
and no pair gets two lines. Which pairs are joined, and with which alpha, is the same for
every scroll position. The alpha of every line is `(1 - dist / 160) * 0.18` with `dist` the
Euclidean distance of the two nodes, and it lies in the interval (0, 0.18]. -/
theorem connections_by_proximity (nodes : List Node) (scrollY : ℚ) :
    (drawPairs nodes.length).Nodup
    ∧ (∀ i j : ℕ, (i, j) ∈ drawPairs nodes.length ↔ i < j ∧ j < nodes.length)
    ∧ (∀ i j : ℕ, (∃ l ∈ drawLines nodes scrollY, l.i = i ∧ l.j = j) ↔
        i < j ∧ j < nodes.length
        ∧ ((nodeAt nodes i).x - (nodeAt nodes j).x) ^ 2
            + ((nodeAt nodes i).y - (nodeAt nodes j).y) ^ 2 < 160 ^ 2)
    ∧ ((drawLines nodes scrollY).map (fun l => (l.i, l.j))).Nodup
    ∧ (∀ other : ℚ,
        (drawLines nodes scrollY).map (fun l => (l.i, l.j, l.alpha))
          = (drawLines nodes other).map (fun l => (l.i, l.j, l.alpha)))
    ∧ (∀ l ∈ drawLines nodes scrollY,
        l.alpha = (1 - Real.sqrt ((((nodeAt nodes l.i).x - (nodeAt nodes l.j).x) ^ 2
            + ((nodeAt nodes l.i).y - (nodeAt nodes l.j).y) ^ 2 : ℚ) : ℝ) / 160) * 0.18
        ∧ 0 < l.alpha ∧ l.alpha ≤ 0.18) := by
  refine ⟨nodup_drawPairs _, mem_drawPairs _, ?_, ?_, ?_, ?_⟩
  · intro i j
    constructor
    · rintro ⟨l, hl, rfl, rfl⟩
      obtain ⟨hij, hlt, _⟩ := (mem_drawLines nodes scrollY l).1 hl
      obtain ⟨h1, h2⟩ := (mem_drawPairs _ _ _).1 hij
      exact ⟨h1, h2, (pairDist_lt_iff _ _ _).1 hlt⟩
    · rintro ⟨h1, h2, h3⟩
      refine ⟨{ i := i, j := j
                x1 := (nodeAt nodes i).x, y1 := (nodeAt nodes i).y - scrollY * 0.08
                x2 := (nodeAt nodes j).x, y2 := (nodeAt nodes j).y - scrollY * 0.08
                alpha := lineAlpha (nodeAt nodes i) (nodeAt nodes j) (scrollY * 0.08) },
        ?_, rfl, rfl⟩
      exact (mem_drawLines nodes scrollY _).2
        ⟨(mem_drawPairs _ _ _).2 ⟨h1, h2⟩, (pairDist_lt_iff _ _ _).2 h3, rfl⟩
  · refine (nodup_drawPairs nodes.length).sublist ?_
    unfold drawLines
    apply filterMap_map_sublist
    intro x y hxy
    dsimp only at hxy
    split at hxy
    · cases hxy; rfl
    · cases hxy
  · intro other
    unfold drawLines
    apply filterMap_map_congr
    intro x
    dsimp only
    have hd : pairDist (nodeAt nodes x.1) (nodeAt nodes x.2) (scrollY * 0.08)
        = pairDist (nodeAt nodes x.1) (nodeAt nodes x.2) (other * 0.08) := by
      rw [pairDist_eq, pairDist_eq]
    have ha : lineAlpha (nodeAt nodes x.1) (nodeAt nodes x.2) (scrollY * 0.08)
        = lineAlpha (nodeAt nodes x.1) (nodeAt nodes x.2) (other * 0.08) := by
      unfold lineAlpha
      rw [hd]
    rw [hd, ha]
    split <;> rfl
  · intro l hl
    obtain ⟨_, hlt, hrec⟩ := (mem_drawLines nodes scrollY l).1 hl
    have halpha : l.alpha = lineAlpha (nodeAt nodes l.i) (nodeAt nodes l.j) (scrollY * 0.08) := by
      rw [hrec]
    refine ⟨?_, ?_⟩
    · rw [halpha]
      unfold lineAlpha
      rw [pairDist_eq]
      unfold CONNECTION_DIST
      norm_num
    · rw [halpha]
      exact lineAlpha_bounds _ _ _ hlt

/-- C7 on three sample nodes at the scroll position 50: the nodes 100 pixels apart are joined,
those 200 and 300 pixels apart are not. -/
theorem connections_by_proximity_witness :
    drawPairs sampleNodes.length = [(0, 1), (0, 2), (1, 2)]
    ∧ (∃ l ∈ drawLines sampleNodes 50, l.i = 0 ∧ l.j = 1)
    ∧ (¬ ∃ l ∈ drawLines sampleNodes 50, l.i = 0 ∧ l.j = 2)
    ∧ (¬ ∃ l ∈ drawLines sampleNodes 50, l.i = 1 ∧ l.j = 2) := by
  have h := (connections_by_proximity sampleNodes 50).2.2.1
  refine ⟨by decide, (h 0 1).2 ?_, fun hc => ?_, fun hc => ?_⟩
  · norm_num [sampleNodes, nodeAt]
  · have h2 := ((h 0 2).1 hc).2.2
    norm_num [sampleNodes, nodeAt] at h2
  · have h2 := ((h 1 2).1 hc).2.2
    norm_num [sampleNodes, nodeAt] at h2

/-! ## Theorems: progress bar -/

theorem jsRound_intCast (n : ℤ) : jsRound (n : ℚ) = n := by
  unfold jsRound
  rw [Int.floor_eq_iff]
  constructor <;> norm_num

theorem jsRound_mono {a b : ℚ} (h : a ≤ b) : jsRound a ≤ jsRound b := by
  unfold jsRound
  exact Int.floor_mono (by linarith)

theorem progressPct_bounds (scrollY : ℚ) (docH : ℤ) (h0 : 0 ≤ scrollY)
    (h1 : scrollY ≤ docH) : 0 ≤ progressPct scrollY docH ∧ progressPct scrollY docH ≤ 100 := by
  unfold progressPct
  split
  · next hpos =>
    have hd : (0 : ℚ) < docH := by exact_mod_cast hpos
    constructor
    · positivity
    · rw [div_mul_eq_mul_div, div_le_iff₀ hd]
      nlinarith
  · norm_num

/-- C11, counterexample. On a page exactly as tall as the window (`scrollHeight` and
`innerHeight` both 800) `docH` is 0, the one scroll position 0 is top and bottom at once, and
`onScroll` writes the percentage 0 and `aria-valuenow` 0 there, not 100. -/
theorem progress_at_bottom_of_short_page :
    shortScrollPage.scrollY
      = ((shortScrollPage.scrollHeight - shortScrollPage.innerHeight : ℤ) : ℚ)
    ∧ (onScroll shortScrollPage).progressWidth = 0
    ∧ (onScroll shortScrollPage).ariaValueNow = 0
    ∧ (onScroll shortScrollPage).ariaValueNow ≠ 100 := by
  have hw : (onScroll shortScrollPage).progressWidth = 0 := by
    simp [onScroll, progressPct, shortScrollPage, sampleScrollPage]
  have h : (onScroll shortScrollPage).ariaValueNow = 0 := by
    have e : (onScroll shortScrollPage).ariaValueNow
        = jsRound (onScroll shortScrollPage).progressWidth := rfl
    rw [e, hw]
    simpa using jsRound_intCast 0
  refine ⟨by norm_num [shortScrollPage, sampleScrollPage], hw, h, ?_⟩
  rw [h]
  decide

/-- C11, amended: the percentage `onScroll` writes is `scrollY / docH * 100` when
`docH = scrollHeight - innerHeight` is positive and 0 otherwise, and `aria-valuenow` is that
percentage rounded; for `0 <= scrollY <= docH` the percentage lies in [0, 100] and
`aria-valuenow` in 0..100; `aria-valuenow` is 0 at the top, and it is 100 at the bottom when
`docH` is positive. -/
theorem progress_bar_percentage (p : ScrollPage) :
    (onScroll p).progressWidth
      = (if 0 < p.scrollHeight - p.innerHeight
          then p.scrollY / ((p.scrollHeight - p.innerHeight : ℤ) : ℚ) * 100 else 0)
    ∧ (onScroll p).ariaValueNow = jsRound (onScroll p).progressWidth
    ∧ (0 ≤ p.scrollY → p.scrollY ≤ ((p.scrollHeight - p.innerHeight : ℤ) : ℚ) →
        0 ≤ (onScroll p).progressWidth ∧ (onScroll p).progressWidth ≤ 100
        ∧ 0 ≤ (onScroll p).ariaValueNow ∧ (onScroll p).ariaValueNow ≤ 100)
    ∧ (p.scrollY = 0 → (onScroll p).progressWidth = 0 ∧ (onScroll p).ariaValueNow = 0)
    ∧ (0 < p.scrollHeight - p.innerHeight →
        p.scrollY = ((p.scrollHeight - p.innerHeight : ℤ) : ℚ) →
        (onScroll p).progressWidth = 100 ∧ (onScroll p).ariaValueNow = 100) := by
  have hw : (onScroll p).progressWidth = progressPct p.scrollY (p.scrollHeight - p.innerHeight) :=
    rfl
  have ha : (onScroll p).ariaValueNow = jsRound (onScroll p).progressWidth := rfl
  have r0 : jsRound 0 = 0 := by simpa using jsRound_intCast 0
  have r100 : jsRound 100 = 100 := by simpa using jsRound_intCast 100
  refine ⟨hw, ha, ?_, ?_, ?_⟩
  · intro h0 h1
    obtain ⟨b0, b1⟩ := progressPct_bounds _ _ h0 h1
    rw [ha, hw]
    refine ⟨b0, b1, ?_, ?_⟩
    · rw [← r0]; exact jsRound_mono b0
    · rw [← r100]; exact jsRound_mono b1
  · intro hz
    have hp : (onScroll p).progressWidth = 0 := by
      rw [hw, hz]
      unfold progressPct
      split <;> simp
    rw [ha, hp]
    exact ⟨rfl, r0⟩
  · intro hpos hbot
    have hd : ((p.scrollHeight - p.innerHeight : ℤ) : ℚ) ≠ 0 := by
      have : (0 : ℚ) < ((p.scrollHeight - p.innerHeight : ℤ) : ℚ) := by exact_mod_cast hpos
      exact ne_of_gt this
    have hp : (onScroll p).progressWidth = 100 := by
      rw [hw, hbot]
      unfold progressPct
      rw [if_pos hpos, div_self hd]
      norm_num
    rw [ha, hp]
    exact ⟨rfl, r100⟩

/-- C11 amended, at the sample page: 4000 pixels of document in a window of 800, scrolled to
700, give 21.875 percent and the value 22; scrolled to the bottom they give 100. -/
theorem progress_bar_percentage_witness :
    (onScroll sampleScrollPage).progressWidth = 175 / 8
    ∧ (onScroll sampleScrollPage).ariaValueNow = 22
    ∧ (onScroll { sampleScrollPage with scrollY := 3200 }).ariaValueNow = 100 := by
  have h := progress_bar_percentage sampleScrollPage
  have hw : (onScroll sampleScrollPage).progressWidth = 175 / 8 := by
    rw [h.1]
    norm_num [sampleScrollPage]
  refine ⟨hw, ?_, ?_⟩
  · rw [h.2.1, hw]
    unfold jsRound
    rw [Int.floor_eq_iff]
    constructor <;> norm_num
  · exact ((progress_bar_percentage { sampleScrollPage with scrollY := 3200 }).2.2.2.2
      (by decide) (by norm_num [sampleScrollPage])).2

/-! ## Theorems: vCard -/

set_option maxRecDepth 20000 in
/-- C14: whatever language is selected, the vCard text is the same string: the 12 lines of
the array joined by CR LF. No line contains a CR or LF and the text holds 11 of each, so it
has exactly 12 lines and ends with the last of them, without a line break. The first line is
"BEGIN:VCARD", the second "VERSION:3.0", the last "END:VCARD"; exactly one line has the
property name N and exactly one the property name FN. -/
theorem vcard_text_fixed (lang : Option String) :
    (vcardDownload lang).text = (vcardDownload none).text
    ∧ (vcardDownload lang).text = String.intercalate "\r\n" vcardLines
    ∧ vcardLines.length = 12
    ∧ (∀ line ∈ vcardLines, '\r' ∉ line.toList ∧ '\n' ∉ line.toList)
    ∧ (vcardDownload lang).text.toList.count '\n' = 11
    ∧ (vcardDownload lang).text.toList.count '\r' = 11
    ∧ (vcardDownload lang).text.toList.getLast? = some 'D'
    ∧ vcardLines[0]? = some "BEGIN:VCARD"
    ∧ vcardLines[1]? = some "VERSION:3.0"
    ∧ vcardLines.getLast? = some "END:VCARD"
    ∧ (vcardLines.filter (hasPropertyName "N")) = ["N:;;;;"]
    ∧ (vcardLines.filter (hasPropertyName "FN"))
        = ["FN:Bundesverband für elektronische Wertpapiere e.V."] := by
  have e : (vcardDownload lang).text = (vcardDownload none).text := rfl
  rw [e]
  refine ⟨rfl, rfl, rfl, by decide, by decide, by decide, by decide, rfl, rfl, rfl, by decide,
    by decide⟩

/-! ## Theorems: node motion -/

theorem updateNode_fields (W H : ℚ) (n : Node) :
    (updateNode W H n).vx = n.vx ∧ (updateNode W H n).vy = n.vy
    ∧ (updateNode W H n).r = n.r ∧ (updateNode W H n).opacity = n.opacity :=
  ⟨rfl, rfl, rfl, rfl⟩

theorem updateNode_x (W H : ℚ) (n : Node) :
    (updateNode W H n).x
      = (if (if n.x + n.vx < -10 then W + 10 else n.x + n.vx) > W + 10 then -10
          else if n.x + n.vx < -10 then W + 10 else n.x + n.vx) := rfl

theorem updateNode_y (W H : ℚ) (n : Node) :
    (updateNode W H n).y
      = (if (if n.y + n.vy < -10 then H + 10 else n.y + n.vy) > H + 10 then -10
          else if n.y + n.vy < -10 then H + 10 else n.y + n.vy) := rfl

/-- The wrap of one coordinate: `v` is the coordinate after the move, `L` the canvas size. -/
theorem wrap_cases (L v : ℚ) (hL : 0 ≤ L) :
    (-10 ≤ (if (if v < -10 then L + 10 else v) > L + 10 then -10
              else if v < -10 then L + 10 else v)
      ∧ (if (if v < -10 then L + 10 else v) > L + 10 then -10
              else if v < -10 then L + 10 else v) ≤ L + 10)
    ∧ (v < -10 → (if (if v < -10 then L + 10 else v) > L + 10 then -10
              else if v < -10 then L + 10 else v) = L + 10)
    ∧ (L + 10 < v → (if (if v < -10 then L + 10 else v) > L + 10 then -10
              else if v < -10 then L + 10 else v) = -10)
    ∧ (-10 ≤ v → v ≤ L + 10 → (if (if v < -10 then L + 10 else v) > L + 10 then -10
              else if v < -10 then L + 10 else v) = v) := by
  refine ⟨⟨?_, ?_⟩, ?_, ?_, ?_⟩ <;> intros <;> split_ifs <;> linarith

/-- C16, in exact arithmetic: for a canvas of size `W, H >= 0`, `update()` leaves every node
with `-10 <= x <= W + 10` and `-10 <= y <= H + 10`; a node whose move took a coordinate below
-10 gets `W + 10` (or `H + 10`) there, one whose move took it above `W + 10` (or `H + 10`)
gets -10, and any other node keeps the moved coordinate; `vx`, `vy`, `r` and `opacity` of
every node stay as they were, and so does the number of nodes. -/
theorem nodes_wrap_around (s : Net) (hW : 0 ≤ s.W) (hH : 0 ≤ s.H) :
    (update s).nodes = s.nodes.map (updateNode s.W s.H)
    ∧ (∀ m ∈ (update s).nodes,
        -10 ≤ m.x ∧ m.x ≤ s.W + 10 ∧ -10 ≤ m.y ∧ m.y ≤ s.H + 10)
    ∧ (∀ n : Node,
        (n.x + n.vx < -10 → (updateNode s.W s.H n).x = s.W + 10)
        ∧ (s.W + 10 < n.x + n.vx → (updateNode s.W s.H n).x = -10)
        ∧ (-10 ≤ n.x + n.vx → n.x + n.vx ≤ s.W + 10 → (updateNode s.W s.H n).x = n.x + n.vx)
        ∧ (n.y + n.vy < -10 → (updateNode s.W s.H n).y = s.H + 10)
        ∧ (s.H + 10 < n.y + n.vy → (updateNode s.W s.H n).y = -10)
        ∧ (-10 ≤ n.y + n.vy → n.y + n.vy ≤ s.H + 10 → (updateNode s.W s.H n).y = n.y + n.vy)
        ∧ (updateNode s.W s.H n).vx = n.vx ∧ (updateNode s.W s.H n).vy = n.vy
        ∧ (updateNode s.W s.H n).r = n.r ∧ (updateNode s.W s.H n).opacity = n.opacity) := by
  refine ⟨rfl, ?_, ?_⟩
  · intro m hm
    have hm' : m ∈ s.nodes.map (updateNode s.W s.H) := hm
    rw [List.mem_map] at hm'
    obtain ⟨n, _, rfl⟩ := hm'
    rw [updateNode_x, updateNode_y]
    obtain ⟨⟨a, b⟩, _⟩ := wrap_cases s.W (n.x + n.vx) hW
    obtain ⟨⟨c, d⟩, _⟩ := wrap_cases s.H (n.y + n.vy) hH
    exact ⟨a, b, c, d⟩
  · intro n
    rw [updateNode_x, updateNode_y]
    obtain ⟨_, a1, a2, a3⟩ := wrap_cases s.W (n.x + n.vx) hW
    obtain ⟨_, b1, b2, b3⟩ := wrap_cases s.H (n.y + n.vy) hH
    exact ⟨a1, a2, a3, b1, b2, b3, rfl, rfl, rfl, rfl⟩

/-- C16 on a canvas of 300 by 200 with three nodes: one drifts out on the left and comes back
at 310, one drifts out at the bottom and comes back at -10, one stays inside. -/
theorem nodes_wrap_around_witness :
    (update { netInit sampleRandom 1440 300 200 with
        nodes := [⟨-9, 50, -2, 0, 2, 0.5⟩, ⟨100, 209, 0, 3, 2, 0.5⟩, ⟨100, 50, 1, 1, 2, 0.5⟩] }
      ).nodes
      = [⟨310, 50, -2, 0, 2, 0.5⟩, ⟨100, -10, 0, 3, 2, 0.5⟩, ⟨101, 51, 1, 1, 2, 0.5⟩]
    ∧ ∀ m ∈ (update { netInit sampleRandom 1440 300 200 with
        nodes := [⟨-9, 50, -2, 0, 2, 0.5⟩, ⟨100, 209, 0, 3, 2, 0.5⟩, ⟨100, 50, 1, 1, 2, 0.5⟩] }
      ).nodes, -10 ≤ m.x ∧ m.x ≤ 300 + 10 ∧ -10 ≤ m.y ∧ m.y ≤ 200 + 10 := by
  refine ⟨?_, ?_⟩
  · simp [update, updateNode, netInit, createNodes, resize]
    norm_num
  · exact (nodes_wrap_around { netInit sampleRandom 1440 300 200 with
        nodes := [⟨-9, 50, -2, 0, 2, 0.5⟩, ⟨100, 209, 0, 3, 2, 0.5⟩, ⟨100, 50, 1, 1, 2, 0.5⟩] }
      (by norm_num [netInit, createNodes, resize])
      (by norm_num [netInit, createNodes, resize])).2.1

/-! ## Theorems: animated counters -/

theorem easeOutExpo_of_ne_one (t : ℝ) (h : t ≠ 1) :
    easeOutExpo t = 1 - (2 : ℝ) ^ (-10 * t) := by
  unfold easeOutExpo
  rw [if_neg h]

theorem easeOutExpo_one : easeOutExpo 1 = 1 := by
  unfold easeOutExpo
  rw [if_pos rfl]

theorem easeOutExpo_le_one (t : ℝ) : easeOutExpo t ≤ 1 := by
  by_cases h : t = 1
  · rw [h, easeOutExpo_one]
  · rw [easeOutExpo_of_ne_one t h]
    have := Real.rpow_pos_of_pos (show (0 : ℝ) < 2 by norm_num) (-10 * t)
    linarith

theorem easeOutExpo_nonneg (t : ℝ) (h0 : 0 ≤ t) : 0 ≤ easeOutExpo t := by
  by_cases h : t = 1
  · rw [h, easeOutExpo_one]
    norm_num
  · rw [easeOutExpo_of_ne_one t h]
    have := Real.rpow_le_one_of_one_le_of_nonpos (show (1 : ℝ) ≤ 2 by norm_num)
      (show -10 * t ≤ 0 by linarith)
    linarith

theorem easeOutExpo_mono (t u : ℝ) (htu : t ≤ u) (hu : u ≤ 1) :
    easeOutExpo t ≤ easeOutExpo u := by
  by_cases h1 : u = 1
  · rw [h1, easeOutExpo_one]
    exact easeOutExpo_le_one t
  · have ht : t ≠ 1 := by
      intro e
      apply h1
      linarith
    rw [easeOutExpo_of_ne_one t ht, easeOutExpo_of_ne_one u h1]
    have := (Real.rpow_le_rpow_left_iff (show (1 : ℝ) < 2 by norm_num)).2
      (show -10 * u ≤ -10 * t by linarith)
    linarith

/-- C15, in exact arithmetic: `easeOutExpo(t)` is `1 - 2^(-10 t)` for every `t` other than
1, and 1 at 1; it is 0 at 0, non-decreasing on [0, 1], and takes its values on [0, 1] in
[0, 1]. -/
theorem easeOutExpo_curve :
    (∀ t : ℝ, t ≠ 1 → easeOutExpo t = 1 - (2 : ℝ) ^ (-10 * t))
    ∧ easeOutExpo 1 = 1
    ∧ easeOutExpo 0 = 0
    ∧ (∀ t u : ℝ, 0 ≤ t → t ≤ u → u ≤ 1 → easeOutExpo t ≤ easeOutExpo u)
    ∧ (∀ t : ℝ, 0 ≤ t → t ≤ 1 → 0 ≤ easeOutExpo t ∧ easeOutExpo t ≤ 1) := by
  refine ⟨easeOutExpo_of_ne_one, easeOutExpo_one, ?_, ?_, ?_⟩
  · rw [easeOutExpo_of_ne_one 0 (by norm_num)]
    simp
  · intro t u _ htu hu
    exact easeOutExpo_mono t u htu hu
  · intro t h0 _
    exact ⟨easeOutExpo_nonneg t h0, easeOutExpo_le_one t⟩

/-- C15 at sample points: a tenth of the way the curve has covered one half, two tenths of
the way three quarters. -/
theorem easeOutExpo_curve_witness :
    easeOutExpo (1 / 10) = 1 / 2 ∧ easeOutExpo (2 / 10) = 3 / 4
    ∧ easeOutExpo (1 / 10) ≤ easeOutExpo (2 / 10) := by
  have h := easeOutExpo_curve
  refine ⟨?_, ?_, h.2.2.2.1 _ _ (by norm_num) (by norm_num) (by norm_num)⟩
  · rw [h.1 _ (by norm_num)]
    have e : (-10 * (1 / 10) : ℝ) = ((-1 : ℤ) : ℝ) := by norm_num
    rw [e, Real.rpow_intCast]
    norm_num
  · rw [h.1 _ (by norm_num)]
    have e : (-10 * (2 / 10) : ℝ) = ((-2 : ℤ) : ℝ) := by norm_num
    rw [e, Real.rpow_intCast]
    norm_num

theorem roundReal_intCast (n : ℤ) : roundReal (n : ℝ) = n := by
  unfold roundReal
  rw [Int.floor_eq_iff]
  constructor <;> norm_num

theorem tickProgress_of_done (t : Tick) (now : ℚ) (h : 2200 ≤ now - t.start) :
    tickProgress t now = 1 := by
  unfold tickProgress
  apply min_eq_right
  rw [le_div_iff₀ (by norm_num)]
  linarith

theorem tickProgress_of_running (t : Tick) (now : ℚ) (h : now - t.start < 2200) :
    tickProgress t now < 1 := by
  unfold tickProgress
  apply min_lt_of_left_lt
  rw [div_lt_one (by norm_num)]
  exact h

theorem tick_of_done (str : ℤ → String) (t : Tick) (now : ℚ) (h : 2200 ≤ now - t.start) :
    tickText str t now = str t.target ++ t.suffix ∧ tickAgain t now = false := by
  have hp := tickProgress_of_done t now h
  constructor
  · unfold tickText tickCurrent
    rw [hp]
    simp only [Rat.cast_one, easeOutExpo_one, sub_zero, mul_one, zero_add]
    rw [roundReal_intCast]
  · unfold tickAgain
    rw [hp]
    simp

theorem tick_of_running (t : Tick) (now : ℚ) (h : now - t.start < 2200) :
    tickAgain t now = true := by
  unfold tickAgain
  simpa using tickProgress_of_running t now h

theorem setText_getElem? (els : List Counter) (i : ℕ) (txt : String) (j : ℕ) :
    (setText els i txt)[j]?
      = (els[j]?).map (fun c => if i = j then { c with text := txt } else c) := by
  unfold setText
  cases h : els[i]? with
  | none =>
    by_cases hij : i = j
    · subst hij
      simp [h]
    · simp [hij]
  | some c =>
    have hlen : i < els.length := (List.getElem?_eq_some_iff.1 h).1
    simp only [List.getElem?_set]
    by_cases hij : i = j
    · subst hij
      simp [h, hlen]
    · simp [hij]

theorem foldl_setText_fixed (str : ℤ → String) (now : ℚ) (ticks : List Tick) (els : List Counter) (j : ℕ) :
    ((ticks.foldl (fun els t => setText els t.el (tickText str t now)) els)[j]?).map Counter.fixed
      = (els[j]?).map Counter.fixed := by
  induction ticks generalizing els with
  | nil => rfl
  | cons t rest ih =>
    rw [List.foldl_cons, ih, setText_getElem?]
    cases els[j]? with
    | none => rfl
    | some c =>
      by_cases h : t.el = j <;> simp [h, Counter.fixed]

theorem foldl_setText_other (str : ℤ → String) (now : ℚ) (ticks : List Tick) (els : List Counter) (j : ℕ)
    (h : ∀ t ∈ ticks, t.el ≠ j) :
    (ticks.foldl (fun els t => setText els t.el (tickText str t now)) els)[j]? = els[j]? := by
  induction ticks generalizing els with
  | nil => rfl
  | cons t rest ih =>
    rw [List.foldl_cons, ih _ (fun u hu => h u (List.mem_cons_of_mem _ hu)), setText_getElem?]
    have hne : t.el ≠ j := h t (List.mem_cons_self _ _)
    cases els[j]? with
    | none => rfl
    | some c => simp [hne]

theorem foldl_setText_of_mem (str : ℤ → String) (now : ℚ) (ticks : List Tick) (els : List Counter) (t : Tick)
    (c : Counter) (hn : (ticks.map fun t => t.el).Nodup) (ht : t ∈ ticks)
    (hc : els[t.el]? = some c) :
    (ticks.foldl (fun els t => setText els t.el (tickText str t now)) els)[t.el]?
      = some { c with text := tickText str t now } := by
  induction ticks generalizing els c with
  | nil => cases ht
  | cons u rest ih =>
    rw [List.map_cons, List.nodup_cons] at hn
    rw [List.foldl_cons]
    rcases List.mem_cons.1 ht with rfl | hmem
    · rw [foldl_setText_other, setText_getElem?, hc]
      · simp
      · intro v hv hel
        exact hn.1 (List.mem_map.2 ⟨v, hv, hel⟩)
    · have hne : u.el ≠ t.el := by
        intro hel
        exact hn.1 (List.mem_map.2 ⟨t, hmem, hel.symm⟩)
      have hc' : (setText els u.el (tickText str u now))[t.el]? = some c := by
        rw [setText_getElem?, hc]
        simp [hne]
      exact ih _ _ hn.2 hmem hc'

theorem eq_of_mem_of_el_eq (ticks : List Tick) (hn : (ticks.map fun t => t.el).Nodup)
    (t u : Tick) (ht : t ∈ ticks) (hu : u ∈ ticks) (h : t.el = u.el) : t = u := by
  induction ticks with
  | nil => cases ht
  | cons v rest ih =>
    rw [List.map_cons, List.nodup_cons] at hn
    rcases List.mem_cons.1 ht with rfl | ht' <;> rcases List.mem_cons.1 hu with rfl | hu'
    · rfl
    · exact absurd (List.mem_map.2 ⟨u, hu', h.symm⟩) hn.1
    · exact absurd (List.mem_map.2 ⟨t, ht', h⟩) hn.1
    · exact ih hn.2 ht' hu'

theorem countersOk_frame (str : ℤ → String) (s : Counters) (now : ℚ) (h : CountersOk s) :
    CountersOk (counterFrame str s now) := by
  obtain ⟨h1, h2, h3⟩ := h
  have hfix : ∀ (j : ℕ) (c' : Counter), (counterFrame str s now).els[j]? = some c' →
      ∃ c, s.els[j]? = some c ∧ c.fixed = c'.fixed := by
    intro j c' hc'
    have e := foldl_setText_fixed str now s.ticks s.els j
    have hc'' : (s.ticks.foldl (fun els t => setText els t.el (tickText str t now)) s.els)[j]?
        = some c' := hc'
    rw [hc''] at e
    cases hs : s.els[j]? with
    | none => rw [hs] at e; cases e
    | some c =>
      rw [hs] at e
      exact ⟨c, rfl, (Option.some.inj e).symm⟩
  have hsub : ∀ t ∈ (counterFrame str s now).ticks, t ∈ s.ticks := by
    intro t ht
    exact (List.mem_filter.1 ht).1
  refine ⟨?_, ?_, ?_⟩
  · intro j c' hc'
    obtain ⟨c, hc, hf⟩ := hfix j c' hc'
    obtain ⟨a, b⟩ := h1 j c hc
    simp only [Counter.fixed, Prod.mk.injEq] at hf
    obtain ⟨_, _, ho, hst⟩ := hf
    rw [← hst, ← ho]
    exact ⟨a, fun hobs => ⟨(b hobs).1, fun t ht => (b hobs).2 t (hsub t ht)⟩⟩
  · exact h2.sublist ((List.filter_sublist _).map _)
  · intro t ht
    obtain ⟨c, hc, hd, hx⟩ := h3 t (hsub t ht)
    have e := foldl_setText_fixed str now s.ticks s.els t.el
    rw [hc] at e
    cases hs : (s.ticks.foldl (fun els t => setText els t.el (tickText str t now)) s.els)[t.el]? with
    | none => rw [hs] at e; cases e
    | some c' =>
      rw [hs] at e
      have hf := Option.some.inj e
      simp only [Counter.fixed, Prod.mk.injEq] at hf
      refine ⟨c', hs, ?_, ?_⟩
      · rw [hf.1]; exact hd
      · rw [hf.2.1]; exact hx

theorem counterEntry_other (s : Counters) (e : Entry) (j : ℕ) (h : e.target ≠ j) :
    (counterEntry s e).els[j]? = s.els[j]? := by
  unfold counterEntry
  split
  · split
    · rfl
    · split
      · rfl
      · simp [List.getElem?_set, h]
  · rfl

theorem countersOk_entry (s : Counters) (e : Entry) (h : CountersOk s)
    (hobs : ∃ c, s.els[e.target]? = some c ∧ c.observed = true) :
    CountersOk (counterEntry s e) := by
  obtain ⟨h1, h2, h3⟩ := h
  obtain ⟨c, hc, hco⟩ := hobs
  have hc0 : c.started = 0 := ((h1 e.target c hc).2 hco).1
  have hcn : ∀ t ∈ s.ticks, t.el ≠ e.target := ((h1 e.target c hc).2 hco).2
  unfold counterEntry
  split
  · rw [hc]
    dsimp only
    cases hd : c.dataCount with
    | none => exact ⟨h1, h2, h3⟩
    | some target =>
      dsimp only
      have hlen : e.target < s.els.length := (List.getElem?_eq_some_iff.1 hc).1
      refine ⟨?_, ?_, ?_⟩
      · intro j c' hc'
        rw [List.getElem?_set] at hc'
        by_cases hj : e.target = j
        · rw [if_pos hj, if_pos hlen] at hc'
          cases hc'
          exact ⟨by simp [hc0], fun hx => by simp at hx⟩
        · rw [if_neg hj] at hc'
          obtain ⟨a, b⟩ := h1 j c' hc'
          refine ⟨a, fun hx => ⟨(b hx).1, ?_⟩⟩
          intro t ht
          rcases List.mem_append.1 ht with ht' | ht'
          · exact (b hx).2 t ht'
          · rw [List.mem_singleton.1 ht']
            exact hj
      · rw [List.map_append, List.nodup_append]
        refine ⟨h2, by simp, ?_⟩
        intro x hx hy
        simp only [List.map_cons, List.map_nil, List.mem_singleton] at hy
        obtain ⟨t, ht, rfl⟩ := List.mem_map.1 hx
        exact hcn t ht hy
      · intro t ht
        rcases List.mem_append.1 ht with ht' | ht'
        · obtain ⟨c', hc', hd', hx'⟩ := h3 t ht'
          refine ⟨c', ?_, hd', hx'⟩
          rw [List.getElem?_set, if_neg (fun hj => hcn t ht' hj.symm)]
          exact hc'
        · rw [List.mem_singleton.1 ht']
          refine ⟨{ c with observed := false, started := c.started + 1 }, ?_, hd, rfl⟩
          simp [List.getElem?_set, hlen, hd]
  · exact ⟨h1, h2, h3⟩

theorem countersOk_callback (entries : List Entry) (s : Counters) (h : CountersOk s)
    (hd : Delivered s entries) : CountersOk (counterCallback s entries) := by
  induction entries generalizing s with
  | nil => exact h
  | cons e rest ih =>
    obtain ⟨hobs, hnd⟩ := hd
    rw [List.map_cons, List.nodup_cons] at hnd
    apply ih (counterEntry s e) (countersOk_entry s e h (hobs e (List.mem_cons_self _ _)))
    refine ⟨?_, hnd.2⟩
    intro e' he'
    have hne : e.target ≠ e'.target := by
      intro heq
      exact hnd.1 (List.mem_map.2 ⟨e', he', heq.symm⟩)
    rw [counterEntry_other s e e'.target hne]
    exact hobs e' (List.mem_cons_of_mem _ he')

theorem countersOk_run (str : ℤ → String) (events : List CounterEvent) (s : Counters) (h : CountersOk s)
    (hd : DeliveredRun str s events) : CountersOk (counterRun str s events) := by
  induction events generalizing s with
  | nil => exact h
  | cons ev rest ih =>
    cases ev with
    | observed entries =>
      exact ih _ (countersOk_callback entries s h hd.1) hd.2
    | frame now =>
      exact ih _ (countersOk_frame str s now h) hd

theorem countersOk_start (els : List Counter) : CountersOk (countersStart els) := by
  refine ⟨?_, by simp [countersStart], ?_⟩
  · intro i c hc
    simp only [countersStart, List.getElem?_map, Option.map_eq_some'] at hc
    obtain ⟨c0, _, rfl⟩ := hc
    refine ⟨by simp, fun _ => ⟨rfl, ?_⟩⟩
    intro t ht
    simp [countersStart] at ht
  · intro t ht
    simp [countersStart] at ht

/-- The attributes `data-count` and `data-suffix` of an element are never written. -/
theorem counterRun_attributes (str : ℤ → String) (events : List CounterEvent) (s : Counters) (j : ℕ) :
    ((counterRun str s events).els[j]?).map (fun c => (c.dataCount, c.dataSuffix))
      = (s.els[j]?).map (fun c => (c.dataCount, c.dataSuffix)) := by
  induction events generalizing s with
  | nil => rfl
  | cons ev rest ih =>
    have hstep : ((counterStep str s ev).els[j]?).map (fun c => (c.dataCount, c.dataSuffix))
        = (s.els[j]?).map (fun c => (c.dataCount, c.dataSuffix)) := by
      cases ev with
      | observed entries =>
        show ((counterCallback s entries).els[j]?).map _ = _
        unfold counterCallback
        induction entries generalizing s with
        | nil => rfl
        | cons e tl ihe =>
          rw [List.foldl_cons, ihe]
          unfold counterEntry
          split
          · split
            · rfl
            · next c hc =>
              split
              · rfl
              · rw [List.getElem?_set]
                by_cases hj : e.target = j
                · subst hj
                  have hlen : e.target < s.els.length := (List.getElem?_eq_some_iff.1 hc).1
                  simp [hlen, hc]
                · simp [hj]
          · rfl
      | frame now =>
        have e := foldl_setText_fixed str now s.ticks s.els j
        show ((counterFrame str s now).els[j]?).map _ = _
        have e2 : ∀ o : Option Counter, o.map (fun c => (c.dataCount, c.dataSuffix))
            = (o.map Counter.fixed).map (fun p => (p.1, p.2.1)) := by
          intro o; cases o <;> rfl
        rw [e2, e2]
        exact congrArg _ e
    show ((counterRun str (counterStep str s ev) rest).els[j]?).map _ = _
    rw [ih, hstep]

/-- What holds of the count-up when every batch of the observer reports observed elements,
each at most once (`DeliveredRun`), whatever the conversion `str` of a number to a string: a
`tick` that runs 2200 ms or more after its start writes `str target` followed by the suffix
and requests no further frame, and an earlier one requests the next frame (exact
arithmetic). A pending `tick` carries the target and suffix of its element, stays pending
over a frame less than 2200 ms after its start, and at a frame 2200 ms or more after its
start leaves its element with `str target` followed by the suffix and no `tick` pending for
it; no element's animation is started more than once, and an element that is still observed
was never started. -/
theorem count_up_ends_on_target (str : ℤ → String) (els : List Counter) (events : List CounterEvent)
    (h : DeliveredRun str (countersStart els) events) :
    (∀ (t : Tick) (now : ℚ), 2200 ≤ now - t.start →
        tickText str t now = str t.target ++ t.suffix ∧ tickAgain t now = false)
    ∧ (∀ (t : Tick) (now : ℚ), now - t.start < 2200 → tickAgain t now = true)
    ∧ (∀ t ∈ (counterRun str (countersStart els) events).ticks,
        (∃ c0, els[t.el]? = some c0 ∧ c0.dataCount = some t.target
          ∧ c0.dataSuffix.getD "" = t.suffix)
        ∧ (∀ now : ℚ, now - t.start < 2200 →
            t ∈ (counterFrame str (counterRun str (countersStart els) events) now).ticks)
        ∧ (∀ now : ℚ, 2200 ≤ now - t.start →
            (∃ c, (counterFrame str (counterRun str (countersStart els) events) now).els[t.el]? = some c
              ∧ c.text = str t.target ++ t.suffix)
            ∧ ∀ u ∈ (counterFrame str (counterRun str (countersStart els) events) now).ticks,
                u.el ≠ t.el))
    ∧ (∀ (i : ℕ) (c : Counter), (counterRun str (countersStart els) events).els[i]? = some c →
        c.started ≤ 1 ∧ (c.observed = true → c.started = 0)) := by
  have hok := countersOk_run str events _ (countersOk_start els) h
  have hattr := counterRun_attributes str events (countersStart els)
  generalize counterRun str (countersStart els) events = s at hok hattr
  obtain ⟨h1, h2, h3⟩ := hok
  refine ⟨tick_of_done str, tick_of_running, ?_, ?_⟩
  · intro t ht
    obtain ⟨c, hc, hd, hx⟩ := h3 t ht
    refine ⟨?_, ?_, ?_⟩
    · have e := hattr t.el
      rw [hc] at e
      simp only [countersStart, List.getElem?_map, Option.map_map] at e
      cases hels : els[t.el]? with
      | none => rw [hels] at e; cases e
      | some c0 =>
        rw [hels] at e
        have e' := Option.some.inj e
        simp only [Function.comp, Prod.mk.injEq] at e'
        exact ⟨c0, rfl, by rw [← e'.1]; exact hd, by rw [← e'.2]; exact hx⟩
    · intro now hnow
      exact List.mem_filter.2 ⟨ht, tick_of_running t now hnow⟩
    · intro now hnow
      obtain ⟨htext, hagain⟩ := tick_of_done str t now hnow
      refine ⟨⟨{ c with text := tickText str t now }, ?_, htext⟩, ?_⟩
      · exact foldl_setText_of_mem str now s.ticks s.els t c h2 ht hc
      · intro u hu hel
        obtain ⟨hu1, hu2⟩ := List.mem_filter.1 hu
        have := eq_of_mem_of_el_eq s.ticks h2 u t hu1 ht hel
        rw [this, hagain] at hu2
        exact absurd hu2 (by decide)
  · intro i c hc
    obtain ⟨a, b⟩ := h1 i c hc
    exact ⟨a, fun ho => (b ho).1⟩

/-- A sample run with one entry per batch, numbers written in decimal digits: the counter to
25 comes into view at 1000 ms; the frame at 2000 ms keeps its `tick` pending, and the frame
at 3200 ms leaves the text "25+" and nothing pending. -/
theorem count_up_ends_on_target_witness :
    DeliveredRun (fun n => toString n) (countersStart sampleCounters) [.observed [⟨0, true, 1000⟩], .frame 2000]
    ∧ (counterRun (fun n => toString n) (countersStart sampleCounters) [.observed [⟨0, true, 1000⟩], .frame 2000]
      ).ticks = [⟨0, 25, "+", 1000⟩]
    ∧ (∃ c, (counterRun (fun n => toString n) (countersStart sampleCounters)
          [.observed [⟨0, true, 1000⟩], .frame 2000, .frame 3200]).els[0]? = some c
        ∧ c.text = "25+")
    ∧ (counterRun (fun n => toString n) (countersStart sampleCounters)
          [.observed [⟨0, true, 1000⟩], .frame 2000, .frame 3200]).ticks = [] := by
  have hd : DeliveredRun (fun n => toString n) (countersStart sampleCounters)
      [.observed [⟨0, true, 1000⟩], .frame 2000] := by
    simp [DeliveredRun, Delivered, countersStart, sampleCounters]
  have ht : (counterRun (fun n => toString n) (countersStart sampleCounters)
      [.observed [⟨0, true, 1000⟩], .frame 2000]).ticks = [⟨0, 25, "+", 1000⟩] := by
    simp [counterRun, counterStep, counterCallback, counterEntry, countersStart,
      sampleCounters, counterFrame, tickAgain, tickProgress]
    norm_num
  have h := (count_up_ends_on_target (fun n => toString n) sampleCounters _ hd).2.2.1 ⟨0, 25, "+", 1000⟩
    (by rw [ht]; exact List.mem_singleton.2 rfl)
  have hrun : counterRun (fun n => toString n) (countersStart sampleCounters)
      [.observed [⟨0, true, 1000⟩], .frame 2000, .frame 3200]
      = counterFrame (fun n => toString n) (counterRun (fun n => toString n) (countersStart sampleCounters)
          [.observed [⟨0, true, 1000⟩], .frame 2000]) 3200 := rfl
  refine ⟨hd, ht, ?_, ?_⟩
  · rw [hrun]
    obtain ⟨c, hc, htext⟩ := (h.2.2 3200 (by norm_num)).1
    exact ⟨c, hc, by rw [htext]; decide⟩
  · rw [hrun]
    have hnone := (h.2.2 3200 (by norm_num)).2
    have hsub : ∀ u ∈ (counterFrame (fun n => toString n) (counterRun (fun n => toString n) (countersStart sampleCounters)
        [.observed [⟨0, true, 1000⟩], .frame 2000]) 3200).ticks, u.el = 0 := by
      intro u hu
      have hu' := (List.mem_filter.1 hu).1
      rw [ht] at hu'
      rw [List.mem_singleton.1 hu']
    cases hl : (counterFrame (fun n => toString n) (counterRun (fun n => toString n) (countersStart sampleCounters)
        [.observed [⟨0, true, 1000⟩], .frame 2000]) 3200).ticks with
    | nil => rfl
    | cons u rest =>
      have hu : u ∈ (counterFrame (fun n => toString n) (counterRun (fun n => toString n) (countersStart sampleCounters)
          [.observed [⟨0, true, 1000⟩], .frame 2000]) 3200).ticks := by
        rw [hl]; exact List.mem_cons_self _ _
      exact absurd (hsub u hu) (hnone u hu)

/-- C13, the code at a failing input. The claim says the animation runs at most once per
element, because the element is unobserved when the animation starts. The observer queues
its entries before the callback runs, so one batch can report an element as coming into
view, leaving and coming into view again; `unobserve` in the callback does not take back
the entries already queued. For that batch the callback starts the animation of the one
sample counter twice: two `tick` closures are pending for it. -/
theorem count_up_started_twice :
    counterCallback (countersStart sampleCounters)
        [⟨0, true, 1000⟩, ⟨0, false, 1000⟩, ⟨0, true, 1000⟩]
      = { els := [{ dataCount := some 25, dataSuffix := some "+", text := "0"
                    observed := false, started := 2 }]
          ticks := [⟨0, 25, "+", 1000⟩, ⟨0, 25, "+", 1000⟩] } := by
  simp [counterCallback, counterEntry, countersStart, sampleCounters]

/-! ## Theorems: focus containment -/

theorem menuKeydown_eq_trapFocus (els : List ElementId) (e : KeyEvent)
    (active : Option ElementId) : menuKeydown els e active = trapFocus els e active := by
  unfold menuKeydown trapFocus
  by_cases hk : e.key ≠ "Tab"
  · simp [hk]
  · by_cases hl : els.length = 0
    · have hnil : els = [] := List.length_eq_zero.1 hl
      subst hnil
      cases active <;> simp [sameElement]
    · simp [hk, hl]

theorem sameElement_iff (a : ElementId) (x : Option ElementId) :
    sameElement (some a) x = true ↔ x = some a := by
  cases x with
  | none => simp [sameElement]
  | some b =>
    simp only [sameElement, beq_iff_eq, Option.some.injEq]
    exact eq_comm

theorem trapFocus_tab_on_last (els : List ElementId) (a : ElementId)
    (h : els.getLast? = some a) :
    trapFocus els ⟨"Tab", false⟩ (some a) = ⟨true, els.head?⟩ := by
  rw [List.getLast?_eq_getElem?] at h
  simp [trapFocus, (sameElement_iff a _).2 h, List.head?_eq_getElem?]

theorem trapFocus_shift_tab_on_first (els : List ElementId) (a : ElementId)
    (h : els.head? = some a) :
    trapFocus els ⟨"Tab", true⟩ (some a) = ⟨true, els.getLast?⟩ := by
  rw [List.head?_eq_getElem?] at h
  simp [trapFocus, (sameElement_iff a _).2 h, List.getLast?_eq_getElem?]

theorem trapFocus_otherwise (els : List ElementId) (e : KeyEvent) (active : Option ElementId)
    (h : ¬ (e.key = "Tab" ∧ ((e.shiftKey = true ∧ sameElement active els.head? = true)
      ∨ (e.shiftKey = false ∧ sameElement active els.getLast? = true)))) :
    trapFocus els e active = ⟨false, active⟩ := by
  unfold trapFocus
  by_cases hk : e.key = "Tab"
  · rw [List.head?_eq_getElem?, List.getLast?_eq_getElem?] at h
    have h1 : ¬ (e.shiftKey = true ∧ sameElement active els[0]? = true) :=
      fun hc => h ⟨hk, Or.inl hc⟩
    have h2 : ¬ (¬ e.shiftKey = true ∧ sameElement active els[els.length - 1]? = true) :=
      fun hc => h ⟨hk, Or.inr ⟨by simpa using hc.1, hc.2⟩⟩
    simp only [hk, ne_eq, not_true_eq_false, if_false, h1, h2]
  · simp [hk]

theorem pressKey_stays (els : List ElementId) (a : ElementId) (ha : a ∈ els) (e : KeyEvent) :
    ∃ b ∈ els, pressKey trapFocus els (some a) e = some b := by
  have hidx : els.indexOf a < els.length := List.indexOf_lt_length.2 ha
  have hget : els[els.indexOf a] = a := List.getElem_indexOf hidx
  have hpos : 0 < els.length := by omega
  unfold pressKey
  by_cases hk : e.key = "Tab"
  · cases hs : e.shiftKey with
    | true =>
      by_cases hf : els[0]? = some a
      · refine ⟨els[els.length - 1], List.getElem_mem _, ?_⟩
        have hlast : els[els.length - 1]? = some els[els.length - 1] :=
          List.getElem?_eq_getElem (by omega)
        simp [trapFocus, hk, hs, (sameElement_iff a _).2 hf, hlast]
      · have hsame : sameElement (some a) els[0]? = false := by
          cases hb : sameElement (some a) els[0]? with
          | false => rfl
          | true => exact absurd ((sameElement_iff a _).1 hb) hf
        have hne : els.indexOf a ≠ 0 := by
          intro h0
          apply hf
          rw [List.getElem?_eq_getElem hpos]
          have : els[0] = els[els.indexOf a] := by simp [h0]
          rw [this, hget]
        refine ⟨els[els.indexOf a - 1], List.getElem_mem _, ?_⟩
        have hprev : els[els.indexOf a - 1]? = some els[els.indexOf a - 1] :=
          List.getElem?_eq_getElem (by omega)
        simp [trapFocus, hk, hs, hsame, defaultTab, ha, hne, hprev]
    | false =>
      by_cases hl : els[els.length - 1]? = some a
      · refine ⟨els[0], List.getElem_mem _, ?_⟩
        have hfirst : els[0]? = some els[0] := List.getElem?_eq_getElem hpos
        simp [trapFocus, hk, hs, (sameElement_iff a _).2 hl, hfirst]
      · have hsame : sameElement (some a) els[els.length - 1]? = false := by
          cases hb : sameElement (some a) els[els.length - 1]? with
          | false => rfl
          | true => exact absurd ((sameElement_iff a _).1 hb) hl
        have hne : els.indexOf a + 1 < els.length := by
          by_contra hcon
          apply hl
          have hi : els.indexOf a = els.length - 1 := by omega
          rw [List.getElem?_eq_getElem (by omega)]
          have : els[els.length - 1] = els[els.indexOf a] := by simp [hi]
          rw [this, hget]
        refine ⟨els[els.indexOf a + 1], List.getElem_mem _, ?_⟩
        have hnext : els[els.indexOf a + 1]? = some els[els.indexOf a + 1] :=
          List.getElem?_eq_getElem hne
        simp [trapFocus, hk, hs, hsame, defaultTab, ha, hnext]
  · exact ⟨a, ha, by simp [trapFocus, hk]⟩

theorem pressKeys_stay (els : List ElementId) (keys : List KeyEvent) (a : ElementId)
    (ha : a ∈ els) : ∃ b ∈ els, keys.foldl (pressKey trapFocus els) (some a) = some b := by
  induction keys generalizing a with
  | nil => exact ⟨a, ha, rfl⟩
  | cons e rest ih =>
    obtain ⟨b, hb, hstep⟩ := pressKey_stays els a ha e
    rw [List.foldl_cons, hstep]
    exact ih b hb

/-- C12: for every list of focusable elements the keydown handler of the mobile menu and
`trapFocus` do the same. A Tab press with focus on the last element prevents the default and
focuses the first; a Shift+Tab press with focus on the first prevents the default and focuses
the last; on every other key or focus position neither the default is prevented nor focus
moved. With the default Tab order walking the list, focus that starts on an element of the
list is on an element of the list after any sequence of key presses. -/
theorem focus_contained (els : List ElementId) (keys : List KeyEvent) :
    (∀ (e : KeyEvent) (active : Option ElementId),
        menuKeydown els e active = trapFocus els e active)
    ∧ (∀ a : ElementId, els.getLast? = some a →
        trapFocus els ⟨"Tab", false⟩ (some a) = ⟨true, els.head?⟩ ∧ els.head?.isSome = true)
    ∧ (∀ a : ElementId, els.head? = some a →
        trapFocus els ⟨"Tab", true⟩ (some a) = ⟨true, els.getLast?⟩
        ∧ els.getLast?.isSome = true)
    ∧ (∀ (e : KeyEvent) (active : Option ElementId),
        ¬ (e.key = "Tab" ∧ ((e.shiftKey = true ∧ sameElement active els.head? = true)
          ∨ (e.shiftKey = false ∧ sameElement active els.getLast? = true))) →
        trapFocus els e active = ⟨false, active⟩)
    ∧ (∀ a ∈ els, ∃ b ∈ els, keys.foldl (pressKey trapFocus els) (some a) = some b)
    ∧ (∀ a ∈ els, ∃ b ∈ els, keys.foldl (pressKey menuKeydown els) (some a) = some b) := by
  have hfun : menuKeydown = trapFocus := by
    funext l e active
    exact menuKeydown_eq_trapFocus l e active
  refine ⟨menuKeydown_eq_trapFocus els, ?_, ?_, trapFocus_otherwise els, ?_, ?_⟩
  · intro a h
    refine ⟨trapFocus_tab_on_last els a h, ?_⟩
    cases els with
    | nil => simp at h
    | cons x xs => rfl
  · intro a h
    refine ⟨trapFocus_shift_tab_on_first els a h, ?_⟩
    cases els with
    | nil => simp at h
    | cons x xs => simp
  · exact fun a ha => pressKeys_stay els keys a ha
  · rw [hfun]
    exact fun a ha => pressKeys_stay els keys a ha

/-- C12 on the list 3, 4, 5: from 4, three Tab presses lead to 5, 3 and 4, and a Shift+Tab
press on 3 leads to 5. -/
theorem focus_contained_witness :
    [KeyEvent.mk "Tab" false, ⟨"Tab", false⟩, ⟨"Tab", false⟩].foldl
        (pressKey trapFocus [3, 4, 5]) (some 4) = some 4
    ∧ [KeyEvent.mk "Tab" false, ⟨"Tab", false⟩].foldl
        (pressKey menuKeydown [3, 4, 5]) (some 4) = some 3
    ∧ trapFocus [3, 4, 5] ⟨"Tab", true⟩ (some 3) = ⟨true, some 5⟩
    ∧ trapFocus [3, 4, 5] ⟨"Enter", false⟩ (some 5) = ⟨false, some 5⟩
    ∧ ∃ b ∈ [3, 4, 5], [KeyEvent.mk "Tab" true, ⟨"Tab", true⟩].foldl
        (pressKey trapFocus [3, 4, 5]) (some 4) = some b := by
  have h := focus_contained [3, 4, 5] [KeyEvent.mk "Tab" true, ⟨"Tab", true⟩]
  exact ⟨by decide, by decide, by decide, by decide, h.2.2.2.2.1 4 (by decide)⟩

/-! ## Theorems: overlays -/

theorem lockOk_step (ft : FocusTargets) (s : Overlays) (b : Bool) (op : OverlayOp)
    (h : LockOk s b) : LockOk (overlayStep ft s op) (lastWasOpen b [op]) := by
  cases op with
  | openMobileMenu => exact ⟨rfl, fun _ => Or.inl rfl⟩
  | closeMobileMenu => exact ⟨rfl, fun hc => by simp [lastWasOpen] at hc⟩
  | openModal id =>
    refine ⟨rfl, fun _ => Or.inr ?_⟩
    show (if id ∈ s.openModals then s.openModals else s.openModals ++ [id]) ≠ []
    split
    · next hmem =>
      intro hnil
      rw [hnil] at hmem
      cases hmem
    · simp
  | closeModal id => exact ⟨rfl, fun hc => by simp [lastWasOpen] at hc⟩
  | escape => exact ⟨rfl, fun hc => by simp [lastWasOpen] at hc⟩
  | focus el => exact h

theorem lockOk_run (ft : FocusTargets) (ops : List OverlayOp) (s : Overlays) (b : Bool)
    (h : LockOk s b) : LockOk (overlayRun ft s ops) (lastWasOpen b ops) := by
  induction ops generalizing s b with
  | nil => exact h
  | cons op rest ih => exact ih _ _ (lockOk_step ft s b op h)

/-- C17, counterexample. With the mobile menu open, opening and closing the imprint modal
leaves the menu open and the body overflow '' and not 'hidden'; with two modals open, closing
one leaves the other open and the overflow ''. -/
theorem scroll_lock_lost_on_close :
    (overlayRun sampleTargets (overlaysClosed none)
        [.openMobileMenu, .openModal "imprintModal", .closeModal "imprintModal"]).menuOpen = true
    ∧ (overlayRun sampleTargets (overlaysClosed none)
        [.openMobileMenu, .openModal "imprintModal", .closeModal "imprintModal"]).bodyOverflow
      = ""
    ∧ (overlayRun sampleTargets (overlaysClosed none)
        [.openModal "imprintModal", .openModal "privacyModal", .closeModal "privacyModal"]
      ).openModals = ["imprintModal"]
    ∧ (overlayRun sampleTargets (overlaysClosed none)
        [.openModal "imprintModal", .openModal "privacyModal", .closeModal "privacyModal"]
      ).bodyOverflow = "" := by
  decide

/-- C17, amended: over every sequence of `openMobileMenu`, `closeMobileMenu`, `openModal`,
`closeModal` and Escape presses (and moves of focus) from the state with everything closed,
the body overflow is 'hidden' exactly when the most recent of these operations was an open
(and then an overlay is open), and '' otherwise; so it is '' whenever the mobile menu and all
modals are closed. -/
theorem scroll_lock_follows_last_operation (ft : FocusTargets) (active : Option ElementId)
    (ops : List OverlayOp) :
    (overlayRun ft (overlaysClosed active) ops).bodyOverflow
      = (if lastWasOpen false ops then "hidden" else "")
    ∧ (lastWasOpen false ops = true →
        (overlayRun ft (overlaysClosed active) ops).menuOpen = true
        ∨ (overlayRun ft (overlaysClosed active) ops).openModals ≠ [])
    ∧ ((overlayRun ft (overlaysClosed active) ops).menuOpen = false →
        (overlayRun ft (overlaysClosed active) ops).openModals = [] →
        (overlayRun ft (overlaysClosed active) ops).bodyOverflow = "") := by
  have h := lockOk_run ft ops (overlaysClosed active) false ⟨rfl, fun hc => absurd hc (by decide)⟩
  refine ⟨h.1, h.2, ?_⟩
  intro hm ho
  cases hb : lastWasOpen false ops with
  | false =>
    rw [h.1, hb]
    rfl
  | true =>
    rcases h.2 hb with hmenu | hmod
    · rw [hm] at hmenu
      cases hmenu
    · exact absurd ho hmod

/-- C17 amended, on a sample run: the lock is set while the menu is open, cleared by Escape,
and set again by opening a modal. -/
theorem scroll_lock_follows_last_operation_witness :
    (overlayRun sampleTargets (overlaysClosed none) [.openMobileMenu, .focus 11]).bodyOverflow
      = "hidden"
    ∧ (overlayRun sampleTargets (overlaysClosed none) [.openMobileMenu, .focus 11, .escape]
      ).bodyOverflow = ""
    ∧ (overlayRun sampleTargets (overlaysClosed none)
        [.openMobileMenu, .focus 11, .escape, .openModal "privacyModal"]).bodyOverflow
      = "hidden" :=
  ⟨(scroll_lock_follows_last_operation sampleTargets none [.openMobileMenu, .focus 11]).1,
    (scroll_lock_follows_last_operation sampleTargets none
      [.openMobileMenu, .focus 11, .escape]).1,
    (scroll_lock_follows_last_operation sampleTargets none
      [.openMobileMenu, .focus 11, .escape, .openModal "privacyModal"]).1⟩

theorem lastFocusedEl_step (ft : FocusTargets) (s : Overlays) (op : OverlayOp)
    (h : ∀ id, op ≠ .openModal id) :
    (overlayStep ft s op).lastFocusedEl = s.lastFocusedEl := by
  cases op with
  | openMobileMenu => rfl
  | closeMobileMenu => rfl
  | openModal id => exact absurd rfl (h id)
  | closeModal id => rfl
  | focus el => rfl
  | escape =>
    show (closeMobileMenu (s.openModals.foldl (fun t id => closeModal id t) s)).lastFocusedEl
      = s.lastFocusedEl
    have : ∀ (l : List String) (t : Overlays),
        (l.foldl (fun t id => closeModal id t) t).lastFocusedEl = t.lastFocusedEl := by
      intro l
      induction l with
      | nil => intro t; rfl
      | cons x xs ih => intro t; rw [List.foldl_cons, ih]; rfl
    exact this _ _

theorem lastFocusedEl_run (ft : FocusTargets) (ops : List OverlayOp) (s : Overlays)
    (h : ∀ op ∈ ops, ∀ id, op ≠ .openModal id) :
    (overlayRun ft s ops).lastFocusedEl = s.lastFocusedEl := by
  induction ops generalizing s with
  | nil => rfl
  | cons op rest ih =>
    show (overlayRun ft (overlayStep ft s op) rest).lastFocusedEl = _
    rw [ih _ (fun o ho => h o (List.mem_cons_of_mem _ ho)),
      lastFocusedEl_step ft s op (h op (List.mem_cons_self _ _))]

/-- C18, counterexample. Focus is on element 1 when the imprint modal is opened; the privacy
modal is opened from inside it and closed again; closing the imprint modal then puts focus on
element 20, the button inside the imprint modal, and not on element 1. -/
theorem focus_not_restored_after_nested_modal :
    (overlayRun sampleTargets (overlaysClosed none) [.focus 1]).activeElement = some 1
    ∧ (overlayRun sampleTargets (overlaysClosed none)
        [.focus 1, .openModal "imprintModal", .openModal "privacyModal",
          .closeModal "privacyModal", .closeModal "imprintModal"]).activeElement = some 20
    ∧ (overlayRun sampleTargets (overlaysClosed none)
        [.focus 1, .openModal "imprintModal", .openModal "privacyModal",
          .closeModal "privacyModal", .closeModal "imprintModal"]).activeElement ≠ some 1 := by
  decide

/-- C18, amended: `openModal` stores the element that has focus when it is called, and
`closeModal(id)` moves focus to the element stored by the most recent `openModal` call,
whichever modal that call opened; it moves no focus when no element was stored. So after
`openModal(id)` and any operations that include no further `openModal` call, `closeModal`
moves focus to the element that had focus when `openModal(id)` was called. -/
theorem close_restores_focus_of_last_open (ft : FocusTargets) (s : Overlays) (id id2 : String)
    (mid : List OverlayOp) (el : ElementId) (hel : s.activeElement = some el)
    (hmid : ∀ op ∈ mid, ∀ x, op ≠ .openModal x) :
    (openModal ft id s).lastFocusedEl = some el
    ∧ (overlayRun ft (openModal ft id s) (mid ++ [.closeModal id2])).activeElement = some el
    ∧ (∀ t : Overlays, t.lastFocusedEl = none →
        (closeModal id2 t).activeElement = t.activeElement)
    ∧ (∀ (t : Overlays) (x : ElementId), t.lastFocusedEl = some x →
        (closeModal id2 t).activeElement = some x) := by
  have hopen : (openModal ft id s).lastFocusedEl = some el := hel
  refine ⟨hopen, ?_, ?_, ?_⟩
  · have hrun : overlayRun ft (openModal ft id s) (mid ++ [.closeModal id2])
        = closeModal id2 (overlayRun ft (openModal ft id s) mid) := by
      simp [overlayRun, List.foldl_append, overlayStep]
    have hlast := lastFocusedEl_run ft mid (openModal ft id s) hmid
    rw [hrun]
    show (match (overlayRun ft (openModal ft id s) mid).lastFocusedEl with
      | some e => some e
      | none => (overlayRun ft (openModal ft id s) mid).activeElement) = some el
    rw [hlast, hopen]
  · intro t ht
    show (match t.lastFocusedEl with
      | some e => some e
      | none => t.activeElement) = t.activeElement
    rw [ht]
  · intro t x ht
    show (match t.lastFocusedEl with
      | some e => some e
      | none => t.activeElement) = some x
    rw [ht]

/-- C18 amended, on a sample run: focus is on element 1 when the imprint modal is opened, the
user moves to element 21 inside it, and closing the modal puts focus back on element 1. -/
theorem close_restores_focus_of_last_open_witness :
    (overlayRun sampleTargets (overlaysClosed none) [.focus 1]).activeElement = some 1
    ∧ (overlayRun sampleTargets
        (openModal sampleTargets "imprintModal"
          (overlayRun sampleTargets (overlaysClosed none) [.focus 1]))
        ([.focus 21] ++ [.closeModal "imprintModal"])).activeElement = some 1 :=
  ⟨by decide,
    (close_restores_focus_of_last_open sampleTargets
      (overlayRun sampleTargets (overlaysClosed none) [.focus 1]) "imprintModal"
      "imprintModal" [.focus 21] 1 (by decide) (by simp)).2.1⟩

end Ewpg
